import Mathlib

/-!
Verification development for the `statichtml` repository: shallow embeddings of
the five batch-job scripts (prediction-market estimators and store merge, the
crypto price store, and the Tesla timeline comment ranking), together with
theorems settling the specified behavioural claims.

Modelling conventions used throughout:
* Python numbers (`float`) are modelled as exact rationals `ℚ`; the scripts only
  add, subtract, multiply, divide and compare values obtained from JSON, and no
  claim under consideration depends on binary floating-point rounding.
* Python exceptions are modelled with `Except String`, carrying the exception
  text; an HTTP request is an oracle function returning `Except String` of the
  parsed JSON shape the code consumes.
* Python strings are Lean `String`s; Python string comparison is code-point
  lexicographic, embedded by `charListLt` below, identical to CPython on the
  ISO date strings the scripts compare.
-/

deriving instance DecidableEq for Except

/-- Lexicographic strict comparison of char lists by code point, exactly the
order Python uses to compare strings. -/
def charListLt : List Char → List Char → Bool
  | [], [] => false
  | [], _ :: _ => true
  | _ :: _, [] => false
  | a :: as, b :: bs => if a < b then true else if b < a then false else charListLt as bs

/-- Python `s < t` on strings. -/
def pyLt (s t : String) : Bool := charListLt s.data t.data

/-- Python truthiness of a string (`if s:`): nonempty. -/
def pyTruthy (s : String) : Bool := !(s == "")

/-- Python truthiness of an optional string (`None` and `""` are falsy). -/
def pyTruthyOpt : Option String → Bool
  | none => false
  | some s => pyTruthy s

/-- Python `x or d` for an optional number `x` (both `None` and `0` fall
through to the default, since `0` is falsy). -/
def pyOrQ (a : Option ℚ) (d : ℚ) : ℚ :=
  match a with
  | none => d
  | some v => if v = 0 then d else v

/-- Python `int(x or 0)` for an optional integer field. -/
def pyOrZ (a : Option ℤ) : ℤ :=
  match a with
  | none => 0
  | some v => v

theorem charListLt_irrefl (l : List Char) : charListLt l l = false := by
  induction l with
  | nil => rfl
  | cons a as ih => simp [charListLt, ih]

theorem charListLt_asymm (l m : List Char) (h : charListLt l m = true) :
    charListLt m l = false := by
  induction l generalizing m with
  | nil =>
    cases m with
    | nil => simp [charListLt] at h
    | cons b bs => rfl
  | cons a as ih =>
    cases m with
    | nil => simp [charListLt] at h
    | cons b bs =>
      simp only [charListLt] at h ⊢
      rcases lt_trichotomy a b with hab | hab | hab
      · simp [hab, asymm hab]
      · subst hab
        simp only [lt_irrefl, if_false] at h ⊢
        exact ih bs h
      · simp [hab, asymm hab] at h

theorem charListLt_negtrans (l m n : List Char)
    (h1 : charListLt l m = false) (h2 : charListLt m n = false) :
    charListLt l n = false := by
  induction l generalizing m n with
  | nil =>
    cases n with
    | nil => rfl
    | cons c cs =>
      cases m with
      | nil => simp [charListLt] at h2
      | cons b bs => simp [charListLt] at h1
  | cons a as ih =>
    cases n with
    | nil => rfl
    | cons c cs =>
      cases m with
      | nil => simp [charListLt] at h2
      | cons b bs =>
        simp only [charListLt] at h1 h2 ⊢
        rcases lt_trichotomy a b with hab | hab | hab
        · simp [hab] at h1
        · subst hab
          rcases lt_trichotomy a c with hac | hac | hac
          · rcases lt_trichotomy a c with _ | _ | _ <;> simp_all
          · subst hac
            simp only [lt_irrefl, if_false] at h1 h2 ⊢
            exact ih bs cs (by simpa using h1) (by simpa using h2)
          · simp [asymm hac, hac]
        · rcases lt_trichotomy b c with hbc | hbc | hbc
          · simp [hbc] at h2
          · subst hbc
            simp [asymm hab, hab]
          · have hcb : c < a := lt_trans hbc hab
            simp [asymm hcb, hcb]

theorem charListLt_nil_left (l : List Char) (h : l ≠ []) : charListLt [] l = true := by
  cases l with
  | nil => exact absurd rfl h
  | cons a as => rfl

/-- Stable insertion step: `x` is placed before the first element `y` that is
not strictly before it (`lt y x = false`), so equal-key elements keep their
relative order. -/
def insertByKey (lt : α → α → Bool) (x : α) : List α → List α
  | [] => [x]
  | y :: ys => if lt y x then y :: insertByKey lt x ys else x :: y :: ys

/-- Stable sort by a strict-order key, extensionally equal to Python's stable
`list.sort` with the corresponding key and direction. -/
def sortByKey (lt : α → α → Bool) : List α → List α
  | [] => []
  | x :: xs => insertByKey lt x (sortByKey lt xs)

theorem insertByKey_perm (lt : α → α → Bool) (x : α) (l : List α) :
    List.Perm (insertByKey lt x l) (x :: l) := by
  induction l with
  | nil => exact List.Perm.refl _
  | cons y ys ih =>
    by_cases h : lt y x = true
    · simp only [insertByKey, h, if_true]
      exact List.Perm.trans (List.Perm.cons y ih) (List.Perm.swap x y ys)
    · simp only [insertByKey, h, if_false]
      exact List.Perm.refl _

theorem sortByKey_perm (lt : α → α → Bool) (l : List α) :
    List.Perm (sortByKey lt l) l := by
  induction l with
  | nil => exact List.Perm.refl _
  | cons x xs ih =>
    exact List.Perm.trans (insertByKey_perm lt x (sortByKey lt xs)) (List.Perm.cons x ih)

theorem insertByKey_sorted (lt : α → α → Bool)
    (hasymm : ∀ a b, lt a b = true → lt b a = false)
    (hnegtrans : ∀ a b c, lt b a = false → lt c b = false → lt c a = false)
    (x : α) (l : List α) (hl : l.Pairwise (fun a b => lt b a = false)) :
    (insertByKey lt x l).Pairwise (fun a b => lt b a = false) := by
  induction l with
  | nil => simp [insertByKey]
  | cons y ys ih =>
    rcases List.pairwise_cons.mp hl with ⟨hy, hys⟩
    by_cases h : lt y x = true
    · simp only [insertByKey, h, if_true]
      refine List.pairwise_cons.mpr ⟨?_, ih hys⟩
      intro z hz
      have hz' : z ∈ x :: ys := (insertByKey_perm lt x ys).mem_iff.mp hz
      rcases List.mem_cons.mp hz' with rfl | hz''
      · exact hasymm y z h
      · exact hy z hz''
    · simp only [insertByKey, h, if_false]
      have h' : lt y x = false := by
        cases hyx : lt y x with
        | false => rfl
        | true => exact absurd hyx h
      refine List.pairwise_cons.mpr ⟨?_, hl⟩
      intro z hz
      rcases List.mem_cons.mp hz with rfl | hz'
      · exact h'
      · exact hnegtrans x y z h' (hy z hz')

theorem sortByKey_sorted (lt : α → α → Bool)
    (hasymm : ∀ a b, lt a b = true → lt b a = false)
    (hnegtrans : ∀ a b c, lt b a = false → lt c b = false → lt c a = false)
    (l : List α) :
    (sortByKey lt l).Pairwise (fun a b => lt b a = false) := by
  induction l with
  | nil => simp [sortByKey]
  | cons x xs ih => exact insertByKey_sorted lt hasymm hnegtrans x (sortByKey lt xs) ih

theorem insertByKey_filter_pos (lt : α → α → Bool) (p : α → Bool) (x : α) (l : List α)
    (hx : p x = true) (hcls : ∀ y, p y = true → lt y x = false) :
    (insertByKey lt x l).filter p = x :: l.filter p := by
  induction l with
  | nil => simp [insertByKey, List.filter, hx]
  | cons y ys ih =>
    by_cases h : lt y x = true
    · have hpy : p y = false := by
        cases hpy : p y with
        | false => rfl
        | true => rw [hcls y hpy] at h; exact absurd h (by simp)
      simp only [insertByKey, h, if_true, List.filter, hpy]
      exact ih
    · simp [insertByKey, h, List.filter, hx]

theorem insertByKey_filter_neg (lt : α → α → Bool) (p : α → Bool) (x : α) (l : List α)
    (hx : p x = false) :
    (insertByKey lt x l).filter p = l.filter p := by
  induction l with
  | nil => simp [insertByKey, List.filter, hx]
  | cons y ys ih =>
    by_cases h : lt y x = true
    · simp only [insertByKey, h, if_true, List.filter]
      cases hpy : p y with
      | false => simpa [hpy] using ih
      | true => simpa [hpy] using congrArg (y :: ·) ih
    · simp [insertByKey, h, List.filter, hx]

/-- Stability of `sortByKey`: the elements of any single key-equivalence class
(a predicate whose members are pairwise unordered by `lt`) come out in their
original input order. -/
theorem sortByKey_filter (lt : α → α → Bool) (p : α → Bool)
    (hcls : ∀ a b, p a = true → p b = true → lt a b = false) (l : List α) :
    (sortByKey lt l).filter p = l.filter p := by
  induction l with
  | nil => rfl
  | cons x xs ih =>
    cases hx : p x with
    | true =>
      have : (insertByKey lt x (sortByKey lt xs)).filter p = x :: (sortByKey lt xs).filter p :=
        insertByKey_filter_pos lt p x _ hx (fun y hy => hcls y x hy hx)
      simp [sortByKey, this, ih, List.filter, hx]
    | false =>
      have : (insertByKey lt x (sortByKey lt xs)).filter p = (sortByKey lt xs).filter p :=
        insertByKey_filter_neg lt p x _ hx
      simp [sortByKey, this, ih, List.filter, hx]

/-- Round-half-even to an integer, the rounding CPython's `round` applies. -/
def roundHalfEven (q : ℚ) : ℤ :=
  let f : ℤ := q.floor
  let r : ℚ := q - f
  if r < 1/2 then f
  else if 1/2 < r then f + 1
  else if f % 2 = 0 then f else f + 1

/-- Python `round(x, n)` on our exact-rational model of floats. -/
def pyRoundTo (n : ℕ) (q : ℚ) : ℚ := (roundHalfEven (q * 10 ^ n) : ℚ) / 10 ^ n

/-- Python `round(x, 2)`. -/
def pyRound2 (q : ℚ) : ℚ := pyRoundTo 2 q

/-!
Embedding of `scripts/update_tesla_timeline_with_comments.py`: the information
density heuristic and the comment ranking.
-/

/-- Python `str.strip()` (the scripts only strip ASCII whitespace in practice). -/
def pyStrip (s : String) : String :=
  ⟨((s.data.dropWhile Char.isWhitespace).reverse.dropWhile Char.isWhitespace).reverse⟩

/-- Character class of the token regex `[A-Za-z0-9\-\.]` in
`info_density_score` (ASCII letters and digits, hyphen, dot). -/
def isTokenChar (c : Char) : Bool :=
  c.isAlpha || c.isDigit || c == '-' || c == '.'

/-- Maximal runs of token characters, i.e. `re.findall` of the token regex. -/
def tokenize : List Char → List (List Char)
  | [] => []
  | c :: cs =>
    if h : isTokenChar c = true then
      ((c :: cs).takeWhile isTokenChar) :: tokenize ((c :: cs).dropWhile isTokenChar)
    else
      tokenize cs
termination_by l => l.length
decreasing_by
  · simp only [List.dropWhile_cons, h, if_true, List.length_cons]
    exact Nat.lt_succ_of_le (List.dropWhile_sublist isTokenChar).length_le
  · simp

/-- The `info_density_score` heuristic: unique lowercased token count / 12,
plus capped length / 80, plus 0.08 per digit, the total capped at 10. -/
def info_density_score (text : String) : ℚ :=
  let t := pyStrip text
  if t == "" then 0
  else
    let tokens := tokenize t.data
    let uniq : ℕ := ((tokens.map (fun w => w.map Char.toLower)).dedup).length
    let length : ℕ := t.data.length
    let numbers : ℕ := t.data.countP Char.isDigit
    min 10 ((uniq : ℚ) / 12 + min 4 ((length : ℚ) / 80) + (numbers : ℚ) * (8/100))

/-- Incoming comment fields used by `rank_comments` (likes may be absent or
null, per `int(c.get("likes", 0) or 0)`). -/
structure CommentIn where
  author : String
  handle : String
  time : String
  text_en : String
  text_zh : String
  likes : Option ℤ
deriving DecidableEq

/-- The normalised comment dict `cc` built inside `rank_comments`. -/
structure CommentOut where
  author : String
  handle : String
  time : String
  text_en : String
  text_zh : String
  likes : ℤ
deriving DecidableEq

/-- Normalisation of one comment dict to the `cc` shape. -/
def normComment (c : CommentIn) : CommentOut :=
  { author := c.author, handle := c.handle, time := c.time,
    text_en := c.text_en, text_zh := c.text_zh, likes := pyOrZ c.likes }

/-- The ranking score recomputed from a normalised comment:
`likes * 0.75 + info_density_score(text_en) * 30`. -/
def commentScoreOf (c : CommentOut) : ℚ :=
  (c.likes : ℚ) * (3/4) + info_density_score c.text_en * 30

/-- The scored pair list built inside `rank_comments`. -/
def rankScored (comments : List CommentIn) : List (ℚ × CommentOut) :=
  comments.map (fun c => (commentScoreOf (normComment c), normComment c))

/-- The comparison of `scored.sort(key=lambda x: x[0], reverse=True)`:
`a` strictly precedes `b` when its score is strictly larger. -/
def rankLt : (ℚ × CommentOut) → (ℚ × CommentOut) → Bool := fun a b => decide (b.1 < a.1)

/-- `rank_comments`: score each comment, stable-sort descending by score
(Python `list.sort(key=..., reverse=True)` is a stable sort), keep the top
`MAX_COMMENTS = 20` and return the normalised dicts. -/
def rank_comments (comments : List CommentIn) : List CommentOut :=
  ((sortByKey rankLt (rankScored comments)).take 20).map Prod.snd

theorem rankLt_asymm (a b : ℚ × CommentOut) (h : rankLt a b = true) : rankLt b a = false := by
  simp only [rankLt, decide_eq_true_eq] at h
  simp only [rankLt, decide_eq_false_iff_not]
  exact asymm h

theorem rankLt_negtrans (a b c : ℚ × CommentOut)
    (h1 : rankLt b a = false) (h2 : rankLt c b = false) : rankLt c a = false := by
  simp only [rankLt, decide_eq_false_iff_not, not_lt] at h1 h2 ⊢
  exact le_trans h2 h1

theorem rankScored_fst (comments : List CommentIn) (p : ℚ × CommentOut)
    (hp : p ∈ rankScored comments) : p.1 = commentScoreOf p.2 := by
  rcases List.mem_map.mp hp with ⟨c, _, rfl⟩
  rfl

theorem rankSorted_fst (comments : List CommentIn) (p : ℚ × CommentOut)
    (hp : p ∈ sortByKey rankLt (rankScored comments)) : p.1 = commentScoreOf p.2 :=
  rankScored_fst comments p ((sortByKey_perm rankLt (rankScored comments)).mem_iff.mp hp)

/-- C7: comment ranking scores each comment as `likes * 0.75 + info_density * 30`
(this is the defining equation of `commentScoreOf`/`rankScored`), returns the
comments in descending score order, keeps at most the top 20, is deterministic,
and preserves the original input order among comments with equal scores (the
score-`s` slice of the output is a sublist of the score-`s` slice of the
normalised input, for every score `s`). -/
theorem C7_rank_comments_contract (comments : List CommentIn) :
    (rank_comments comments).length ≤ 20
  ∧ (rank_comments comments).Pairwise (fun a b => commentScoreOf b ≤ commentScoreOf a)
  ∧ rank_comments comments = rank_comments comments
  ∧ ∀ s : ℚ, List.Sublist
      ((rank_comments comments).filter (fun c => commentScoreOf c == s))
      ((comments.map normComment).filter (fun c => commentScoreOf c == s)) := by
  refine ⟨?_, ?_, rfl, ?_⟩
  · simp only [rank_comments, List.length_map, List.length_take]
    exact min_le_left _ _
  · have hsorted := sortByKey_sorted rankLt rankLt_asymm rankLt_negtrans (rankScored comments)
    have htake : (((sortByKey rankLt (rankScored comments)).take 20)).Pairwise
        (fun a b => rankLt b a = false) :=
      hsorted.sublist (List.take_sublist 20 _)
    have htake' : (((sortByKey rankLt (rankScored comments)).take 20)).Pairwise
        (fun a b => commentScoreOf b.2 ≤ commentScoreOf a.2) := by
      refine List.Pairwise.imp_of_mem ?_ htake
      intro a b ha hb hab
      have ha' := rankSorted_fst comments a ((List.take_sublist 20 _).mem ha)
      have hb' := rankSorted_fst comments b ((List.take_sublist 20 _).mem hb)
      simp only [rankLt, decide_eq_false_iff_not, not_lt] at hab
      rw [← ha', ← hb']
      exact hab
    simpa only [rank_comments, List.pairwise_map] using htake'
  · intro s
    have hstep1 : (rank_comments comments).filter (fun c => commentScoreOf c == s)
        = (((sortByKey rankLt (rankScored comments)).take 20).filter
            (fun x => commentScoreOf x.2 == s)).map Prod.snd := by
      simp only [rank_comments]
      exact List.filter_map Prod.snd _
    have hstep2 : (((sortByKey rankLt (rankScored comments)).take 20).filter
        (fun x => commentScoreOf x.2 == s))
        = (((sortByKey rankLt (rankScored comments)).take 20).filter (fun x => x.1 == s)) := by
      refine List.filter_congr ?_
      intro x hx
      rw [rankSorted_fst comments x ((List.take_sublist 20 _).mem hx)]
    have hstep3 : List.Sublist
        (((sortByKey rankLt (rankScored comments)).take 20).filter (fun x => x.1 == s))
        ((sortByKey rankLt (rankScored comments)).filter (fun x => x.1 == s)) :=
      (List.take_sublist 20 _).filter _
    have hstep4 : (sortByKey rankLt (rankScored comments)).filter (fun x => x.1 == s)
        = (rankScored comments).filter (fun x => x.1 == s) := by
      refine sortByKey_filter rankLt _ ?_ _
      intro a b ha hb
      have ha' : a.1 = s := by simpa using ha
      have hb' : b.1 = s := by simpa using hb
      simp [rankLt, ha', hb']
    have hstep5 : (rankScored comments).filter (fun x => x.1 == s)
        = (rankScored comments).filter (fun x => commentScoreOf x.2 == s) := by
      refine List.filter_congr ?_
      intro x hx
      rw [rankScored_fst comments x hx]
    have hstep6 : ((rankScored comments).filter
          (fun x => commentScoreOf x.2 == s)).map Prod.snd
        = (comments.map normComment).filter (fun c => commentScoreOf c == s) := by
      have hmapsnd : (rankScored comments).map Prod.snd = comments.map normComment := by
        simp [rankScored, List.map_map, Function.comp]
      calc ((rankScored comments).filter (fun x => commentScoreOf x.2 == s)).map Prod.snd
          = ((rankScored comments).filter
              ((fun c => commentScoreOf c == s) ∘ Prod.snd)).map Prod.snd := rfl
        _ = ((rankScored comments).map Prod.snd).filter (fun c => commentScoreOf c == s) :=
            (List.filter_map Prod.snd _).symm
        _ = (comments.map normComment).filter (fun c => commentScoreOf c == s) := by
            rw [hmapsnd]
    rw [hstep1, hstep2, ← hstep6, ← hstep5, ← hstep4]
    exact hstep3.map Prod.snd

/-!
Embedding of `scripts/update_crypto_data.py`: the per-asset record store,
`read_json`, `load_or_init` and `upsert_record`.
-/

/-- One crypto asset price record (new format). `date` may be absent in rows
migrated from the legacy store, hence `Option`. -/
structure CryptoRec where
  date : Option String
  timestamp : Option ℤ
  price : Option ℚ
  marketCap : Option ℚ
  volume24h : Option ℚ
  circulatingSupply : Option ℚ
  supplyMetric : String
  source : String
  sourceUrl : String
deriving DecidableEq

/-- One record of the legacy USDC store. -/
structure LegacyRec where
  date : Option String
  timestamp : Option ℤ
  price : Option ℚ
  marketCap : Option ℚ
  volume24h : Option ℚ
  circulatingSupply : Option ℚ
  source : Option String
deriving DecidableEq

/-- One entry of the `assets` map. -/
structure CryptoAsset where
  symbol : String
  name : String
  source : String
  records : List CryptoRec
deriving DecidableEq

/-- The whole `crypto-data.json` document. -/
structure CryptoStore where
  assets : List (String × CryptoAsset)
  lastUpdate : String
  source : String
deriving DecidableEq

/-- State of a JSON file on disk: absent, present but not valid JSON, or
present with parsed content. -/
inductive JsonFile (α : Type) where
  | absent
  | malformed
  | parsed (data : α)
deriving DecidableEq

/-- `read_json`: returns `None` when the path does not exist, otherwise calls
`json.load` with no exception handling, so a malformed file raises
`json.JSONDecodeError` to the caller. -/
def read_json {α : Type} : JsonFile α → Except String (Option α)
  | .absent => .ok none
  | .malformed => .error "json.decoder.JSONDecodeError"
  | .parsed d => .ok (some d)

/-- Parsed shape of `crypto-data.json` as `load_or_init` inspects it: either a
truthy dict carrying an `assets` key, or any other JSON value. -/
inductive CryptoDoc where
  | withAssets (store : CryptoStore)
  | other
deriving DecidableEq

/-- Parsed shape of a legacy USDC file: a truthy dict carrying a `records`
key, or any other JSON value. -/
inductive LegacyDoc where
  | withRecords (records : List LegacyRec)
  | other
deriving DecidableEq

/-- Migration of one legacy USDC record performed inside `load_or_init`. -/
def migrateLegacy (r : LegacyRec) : CryptoRec :=
  { date := r.date, timestamp := r.timestamp, price := r.price,
    marketCap := r.marketCap, volume24h := r.volume24h,
    circulatingSupply := r.circulatingSupply,
    supplyMetric := "circulating_supply（流通供应量）",
    source := r.source.getD "CoinGecko", sourceUrl := "https://api.coingecko.com/api/v3/coins/markets" }

/-- The legacy-file scan of `load_or_init`: read each legacy file in order
(a malformed one raises), stopping at the first whose parse is a truthy dict
with a `records` key; any other outcome contributes no records. -/
def scanLegacy : List (JsonFile LegacyDoc) → Except String (List LegacyRec)
  | [] => .ok []
  | f :: fs =>
    match read_json f with
    | .error e => .error e
    | .ok (some (.withRecords rs)) => .ok rs
    | .ok _ => scanLegacy fs

/-- Fresh `assets` map built by `load_or_init` from the `COINS` table. -/
def initAssets (usdcRecords : List CryptoRec) : List (String × CryptoAsset) :=
  [ ("USDC", { symbol := "USDC", name := "USD Coin", source := "CoinGecko", records := usdcRecords }),
    ("USDT", { symbol := "USDT", name := "Tether", source := "CoinGecko", records := [] }),
    ("BTC", { symbol := "BTC", name := "Bitcoin", source := "CoinGecko", records := [] }),
    ("ETH", { symbol := "ETH", name := "Ethereum", source := "CoinGecko", records := [] }) ]

/-- `load_or_init`: return the parsed store when `crypto-data.json` parses to a
dict with `assets`; otherwise build a fresh store, seeding the USDC series from
the first usable legacy file. A malformed file (main or legacy) raises. -/
def load_or_init (outFile : JsonFile CryptoDoc)
    (legacy1 legacy2 : JsonFile LegacyDoc) (nowIso : String) : Except String CryptoStore :=
  match read_json outFile with
  | .error e => .error e
  | .ok (some (.withAssets s)) => .ok s
  | .ok _ =>
    match scanLegacy [legacy1, legacy2] with
    | .error e => .error e
    | .ok legacyRecs =>
      .ok { assets := initAssets (legacyRecs.map migrateLegacy),
            lastUpdate := nowIso, source := "CoinGecko" }

/-- First pass of `upsert_record`: replace the first record with the same
`date` (returns `none` when no record matches). -/
def replaceByDate : List CryptoRec → CryptoRec → Option (List CryptoRec)
  | [], _ => none
  | r :: rs, rec =>
    if r.date == rec.date then some (rec :: rs)
    else (replaceByDate rs rec).map (r :: ·)

/-- The ascending-by-date comparison of `asset_records.sort(key=lambda x:
x.get('date', ''))`. -/
def cryptoDateLt (a b : CryptoRec) : Bool :=
  charListLt (a.date.getD "").data (b.date.getD "").data

/-- `upsert_record`: replace the record with the same date in place, else
append the new record and re-sort the whole list by date (Python's stable
sort). -/
def upsert_record (asset_records : List CryptoRec) (new_record : CryptoRec) : List CryptoRec :=
  match replaceByDate asset_records new_record with
  | some l => l
  | none => sortByKey cryptoDateLt (asset_records ++ [new_record])

/-!
Embedding of `scripts/update_prediction_markets_daily_history.py`: the retry
loop, the three estimators, the record store (`load_existing_records`,
`upsert`), the 90-day trim and the record-producing part of `main`.
-/

/-- One prediction-market daily record. -/
structure DailyRec where
  date : String
  platform : String
  daily_total_value : Option ℚ
  unit : String
  source : String
  method : String
  status : String
deriving DecidableEq

/-- Retry loop of `http_get_json` (shared verbatim, up to timeout and backoff
constants that do not affect the result, by both prediction-markets scripts):
try attempts `start`, `start+1`, ... while fuel lasts, remembering the last
error; when all attempts are exhausted the last error is raised. `err` starts
as the Python `err = None` sentinel (with `retries = 0` Python would `raise
None`; both scripts always pass a positive retry count). -/
def httpRetry {J : Type} (attempt : ℕ → Except String J) : ℕ → ℕ → String → Except String J
  | 0, _, err => .error err
  | fuel + 1, i, _ =>
    match attempt i with
    | .ok v => .ok v
    | .error e => httpRetry attempt fuel (i + 1) e

/-- `http_get_json(url, retries=n)`: the `attempt` oracle plays the role of one
`curl` invocation plus JSON parse for the fixed URL. -/
def http_get_json {J : Type} (attempt : ℕ → Except String J) (retries : ℕ) : Except String J :=
  httpRetry attempt retries 0 "None"

/-- JSON response for endpoints the scripts iterate as lists: either not a
list (any other JSON value) or a parsed list. -/
inductive ListResp (α : Type) where
  | notList
  | ofList (xs : List α)
deriving DecidableEq

/-- One Polymarket Gamma market row; only `volume24hr` is read. -/
structure PMarket where
  volume24hr : Option ℚ
deriving DecidableEq

/-- `sum(float(m.get("volume24hr") or 0) for m in arr)` accumulated in page
order. -/
def pmSum (arr : List PMarket) : ℚ :=
  arr.foldl (fun acc m => acc + pyOrQ m.volume24hr 0) 0

/-- Pagination loop of `get_polymarket_value`, with `fetch page` standing for
`http_get_json` on the page URL. The extra `fetches` component counts the HTTP
page requests actually issued. -/
def polyPages (fetch : ℕ → Except String (ListResp PMarket)) :
    ℕ → ℕ → ℚ → ℕ → ℕ → Except String (ℚ × ℕ × ℕ)
  | 0, _, total, count, fetches => .ok (total, count, fetches)
  | fuel + 1, page, total, count, fetches =>
    match fetch page with
    | .error e => .error e
    | .ok .notList => .ok (total, count, fetches + 1)
    | .ok (.ofList arr) =>
      if arr.isEmpty then .ok (total, count, fetches + 1)
      else
        let count' := count + arr.length
        let total' := total + pmSum arr
        if arr.length < 200 then .ok (total', count', fetches + 1)
        else polyPages fetch fuel (page + 1) total' count' (fetches + 1)

/-- `get_polymarket_value`: paginate up to 4 pages of 200, stop early on a
short page, sum `volume24hr`; no markets at all means `missing`, otherwise the
value is reported with status `partial`. -/
def get_polymarket_value (attempt : ℕ → ℕ → Except String (ListResp PMarket)) :
    Except String (Option ℚ × String × String) :=
  match polyPages (fun page => http_get_json (attempt page) 4) 4 0 0 0 0 with
  | .error e => .error e
  | .ok (total, count, _) =>
    if count = 0 then .ok (none, "missing", "Polymarket Gamma API failed")
    else .ok (some (pyRound2 total), "partial",
      s!"sum(markets.volume24hr), {count} active unresolved markets")

/-- One Manifold bet row; the fields read by the scripts. -/
structure Bet where
  createdTime : Option ℤ
  shares : Option ℚ
  contractId : Option String
deriving DecidableEq

/-- Minimum `int(b.get("createdTime") or 0)` over a page of bets (`None` only
for the empty page, mirroring the `min_ts is None` defensive break). -/
def betsMinTs (bets : List Bet) : Option ℤ :=
  match bets.map (fun b => pyOrZ b.createdTime) with
  | [] => none
  | t :: ts => some (ts.foldl min t)

/-- Whether a bet timestamp (milliseconds) falls before the local-day start
(`datetime.fromtimestamp(ts / 1000, tz=UTC) < start_utc`), with `startSec` the
POSIX seconds of the window start. -/
def betBeforeStart (startSec : ℚ) (b : Bet) : Bool :=
  decide ((pyOrZ b.createdTime : ℚ) / 1000 < startSec)

/-- Sum of `abs(float(b.get("shares") or 0))` over the bets at or after the
window start. -/
def betsVolSum (startSec : ℚ) (bets : List Bet) : ℚ :=
  bets.foldl (fun acc b => if betBeforeStart startSec b then acc else acc + |pyOrQ b.shares 0|) 0

/-- Pagination loop of `get_manifold_value`: up to 4 pages of recent bets,
paging backwards via `beforeTime`; stops when a page reaches back past the day
start, is empty, or is not a list. -/
def manifoldPages (fetch : Option ℤ → Except String (ListResp Bet)) (startSec : ℚ) :
    ℕ → Option ℤ → ℚ → ℕ → Except String (ℚ × ℕ)
  | 0, _, vol, scanned => .ok (vol, scanned)
  | fuel + 1, before, vol, scanned =>
    match fetch before with
    | .error e => .error e
    | .ok .notList => .ok (vol, scanned)
    | .ok (.ofList bets) =>
      if bets.isEmpty then .ok (vol, scanned)
      else
        let scanned' := scanned + bets.length
        let vol' := vol + betsVolSum startSec bets
        match betsMinTs bets with
        | none => .ok (vol', scanned')
        | some m =>
          if bets.any (betBeforeStart startSec) then .ok (vol', scanned')
          else manifoldPages fetch startSec fuel (some (m - 1)) vol' scanned'

/-- `get_manifold_value`: page recent bets and sum today's absolute share
volume; nothing scanned means `missing`, otherwise `partial`. -/
def get_manifold_value (attempt : Option ℤ → ℕ → Except String (ListResp Bet))
    (startSec : ℚ) : Except String (Option ℚ × String × String) :=
  match manifoldPages (fun before => http_get_json (attempt before) 4) startSec 4 none 0 0 with
  | .error e => .error e
  | .ok (vol, scanned) =>
    if scanned = 0 then .ok (none, "missing", "Manifold bets API failed")
    else .ok (some (pyRound2 vol), "partial",
      s!"sum(abs(bets.shares)) from paged recent bets, scanned={scanned}")

/-- One kalshidata historical snapshot, with the fields the script reads plus
`total_contracts_traded`, which the feed may carry but the script never
reads. -/
structure Snapshot where
  date : Option String
  trading_volume_change : Option ℚ
  trading_volume : Option ℚ
  total_contracts_traded : Option ℚ
deriving DecidableEq

/-- JSON response of the historical-snapshots endpoint: `snapshots.get
("snapshots", []) if isinstance(snapshots, dict) else []`. -/
inductive SnapResp where
  | notDict
  | dict (snapshots : List Snapshot)
deriving DecidableEq

/-- The comparison of `published.sort(key=lambda x: x["date"])` (all sorted
elements have a truthy date, so the default is never observed). -/
def snapDateLt (a b : Snapshot) : Bool :=
  charListLt (a.date.getD "").data (b.date.getD "").data

/-- The published snapshots considered by `get_kalshi_published`: truthy dates
strictly before today, sorted ascending by date. -/
def kalshiPublished (arr : List Snapshot) (todayLocal : String) : List Snapshot :=
  sortByKey snapDateLt (arr.filter (fun x =>
    match x.date with
    | none => false
    | some d => pyTruthy d && pyLt d todayLocal))

/-- The daily value of `get_kalshi_published`: `trading_volume_change` of the
latest snapshot, or the difference of the last two `trading_volume` values
when the change is absent and at least two snapshots are published. -/
def kalshiDaily (published : List Snapshot) (latest : Snapshot) : Option ℚ :=
  match latest.trading_volume_change with
  | some v => some v
  | none =>
    if 2 ≤ published.length then
      match published[published.length - 2]? with
      | some prev => some (pyOrQ latest.trading_volume 0 - pyOrQ prev.trading_volume 0)
      | none => none
    else none

/-- The result of `get_kalshi_published` computed from the parsed snapshot
list: no published snapshot or no daily value means `missing`, otherwise the
rounded daily value with status `ok`. -/
def kalshiPublishedResult (arr : List Snapshot) (todayLocal : String) :
    Except String (Option String × Option ℚ × String × String) :=
  let published := kalshiPublished arr todayLocal
  match published.getLast? with
  | none => .ok (none, none, "missing", "Kalshi historical snapshots unavailable")
  | some latest =>
    match kalshiDaily published latest with
    | none => .ok (latest.date, none, "missing", "Kalshi trading volume daily change missing")
    | some d => .ok (latest.date, some (pyRound2 d), "ok",
        "published_daily_t_plus_1 from kalshidata historical-snapshots.trading_volume_change")

/-- `get_kalshi_published`: fetch the snapshots (raising after exhausted
retries) and reduce them to the published daily record. -/
def get_kalshi_published (attempt : ℕ → Except String SnapResp) (todayLocal : String) :
    Except String (Option String × Option ℚ × String × String) :=
  match http_get_json attempt 4 with
  | .error e => .error e
  | .ok resp => kalshiPublishedResult (match resp with | .notDict => [] | .dict s => s) todayLocal

/-- One row of the old wide store format. -/
structure OldRow where
  date : Option String
  polymarket_daily : Option ℚ
  manifold_daily : Option ℚ
  kalshi_daily_published : Option ℚ
deriving DecidableEq

/-- Shape of `prediction-markets-daily-history.json`: absent, malformed JSON,
long format (a dict whose nonempty `records` list starts with a dict carrying
a `platform` key), the old wide format (a dict with a `records` list not
passing that check), or any other JSON value. -/
inductive PredFile where
  | absent
  | malformed
  | newFormat (records : List DailyRec)
  | oldFormat (rows : List OldRow)
  | otherJson
deriving DecidableEq

/-- Migration of one old wide row into up to three long records (rows with a
falsy date are skipped). -/
def migrateRow (r : OldRow) : List DailyRec :=
  match r.date with
  | none => []
  | some dt =>
    if pyTruthy dt then
      [ { date := dt, platform := "Polymarket", daily_total_value := r.polymarket_daily,
          unit := "USDC(volume24hr sum, proxy)",
          source := "https://gamma-api.polymarket.com/markets",
          method := "sum(markets.volume24hr)",
          status := if r.polymarket_daily.isSome then "partial" else "missing" },
        { date := dt, platform := "Manifold", daily_total_value := r.manifold_daily,
          unit := "shares(today, paged)",
          source := "https://api.manifold.markets/v0/bets",
          method := "sum(abs(bets.shares))",
          status := if r.manifold_daily.isSome then "partial" else "missing" },
        { date := dt, platform := "Kalshi", daily_total_value := r.kalshi_daily_published,
          unit := "contracts",
          source := "https://www.kalshidata.com/api/analytics/historical-snapshots",
          method := "published_daily_t_plus_1",
          status := if r.kalshi_daily_published.isSome then "ok" else "missing" } ]
    else []

/-- `load_existing_records`: an absent file or one whose JSON fails to parse
yields the empty list; the long format is returned as is; the old wide format
is migrated; anything else migrates nothing. -/
def load_existing_records : PredFile → List DailyRec
  | .absent => []
  | .malformed => []
  | .newFormat records => records
  | .oldFormat rows => rows.foldr (fun r acc => migrateRow r ++ acc) []
  | .otherJson => []

/-- `upsert`: replace the first record with the same `(date, platform)` key,
else append. -/
def upsert : List DailyRec → DailyRec → List DailyRec
  | [], rec => [rec]
  | r :: rs, rec =>
    if r.date == rec.date && r.platform == rec.platform then rec :: rs
    else r :: upsert rs rec

/-- Days since 1970-01-01 of a civil date (Howard Hinnant's algorithm),
modelling `datetime.date` arithmetic. -/
def daysFromCivil : ℤ × ℕ × ℕ → ℤ := fun (y, m, d) =>
  let y' : ℤ := if m ≤ 2 then y - 1 else y
  let era : ℤ := y'.fdiv 400
  let yoe : ℤ := y' - era * 400
  let mp : ℕ := if 2 < m then m - 3 else m + 9
  let doy : ℤ := (153 * (mp : ℤ) + 2).fdiv 5 + (d : ℤ) - 1
  let doe : ℤ := yoe * 365 + yoe.fdiv 4 - yoe.fdiv 100 + doy
  era * 146097 + doe - 719468

/-- Civil date of a day count since 1970-01-01 (inverse of `daysFromCivil`). -/
def civilFromDays (z0 : ℤ) : ℤ × ℕ × ℕ :=
  let z := z0 + 719468
  let era : ℤ := z.fdiv 146097
  let doe : ℤ := z - era * 146097
  let yoe : ℤ := (doe - doe.fdiv 1460 + doe.fdiv 36524 - doe.fdiv 146096).fdiv 365
  let y : ℤ := yoe + era * 400
  let doy : ℤ := doe - (365 * yoe + yoe.fdiv 4 - yoe.fdiv 100)
  let mp : ℤ := (5 * doy + 2).fdiv 153
  let d : ℤ := doy - (153 * mp + 2).fdiv 5 + 1
  let m : ℤ := mp + (if mp < 10 then 3 else -9)
  (y + (if m ≤ 2 then 1 else 0), m.toNat, d.toNat)

/-- Left-pad a digit string with zeros to width `k`. -/
def padLeft (k : ℕ) (l : List Char) : List Char :=
  List.replicate (k - l.length) '0' ++ l

/-- Character list of `date.isoformat()` (`YYYY-MM-DD`). -/
def isoChars (y : ℤ) (m d : ℕ) : List Char :=
  (if y < 0 then '-' :: padLeft 4 (Nat.toDigits 10 y.natAbs)
   else padLeft 4 (Nat.toDigits 10 y.natAbs))
  ++ '-' :: (padLeft 2 (Nat.toDigits 10 m) ++ '-' :: padLeft 2 (Nat.toDigits 10 d))

/-- `date.isoformat()` of a civil date. -/
def isoOfDate : ℤ × ℕ × ℕ → String := fun (y, m, d) => ⟨isoChars y m d⟩

/-- The trim cutoff of `main`:
`(datetime.strptime(today_local, "%Y-%m-%d").date() - timedelta(days=89)).isoformat()`,
i.e. the ISO string of the civil date 89 days before today. -/
def cutoffOf (today : ℤ × ℕ × ℕ) : String :=
  isoOfDate (civilFromDays (daysFromCivil today - 89))

/-- The trim of `main`: keep records with a truthy date at or after the cutoff
and a non-null `daily_total_value`. -/
def trimRecords (cutoff : String) (records : List DailyRec) : List DailyRec :=
  records.filter (fun r => pyTruthy r.date && !(pyLt r.date cutoff) && r.daily_total_value.isSome)

/-- The `(date, platform)` lexicographic comparison of
`records.sort(key=lambda r: (r.get("date", ""), r.get("platform", "")))`. -/
def recPairLt (a b : DailyRec) : Bool :=
  charListLt a.date.data b.date.data
  || (a.date == b.date && charListLt a.platform.data b.platform.data)

/-- The record-producing part of `main` in the daily-history script: the three
estimator outcomes are taken as arguments (each `Except.error` standing for an
exception raised by that estimator), the produced records are upserted, the
list is sorted and trimmed. There is no `try`/`except` around the estimator
calls, so any estimator error propagates and aborts the run. -/
def updateMainRecords (today : ℤ × ℕ × ℕ) (records0 : List DailyRec)
    (pOut : Except String (Option ℚ × String × String))
    (mOut : Except String (Option ℚ × String × String))
    (kOut : Except String (Option String × Option ℚ × String × String)) :
    Except String (List DailyRec) :=
  match pOut with
  | .error e => .error e
  | .ok (pVal, pStatus, pMethod) =>
    let records1 := upsert records0
      { date := isoOfDate today, platform := "Polymarket", daily_total_value := pVal,
        unit := "USDC(volume24hr sum, proxy)",
        source := "https://gamma-api.polymarket.com/markets",
        method := pMethod, status := pStatus }
    match mOut with
    | .error e => .error e
    | .ok (mVal, mStatus, mMethod) =>
      let records2 := upsert records1
        { date := isoOfDate today, platform := "Manifold", daily_total_value := mVal,
          unit := "shares(today, paged)",
          source := "https://api.manifold.markets/v0/bets",
          method := mMethod, status := mStatus }
      match kOut with
      | .error e => .error e
      | .ok (kDate, kVal, kStatus, kMethod) =>
        let records3 :=
          match kDate with
          | some d =>
            if pyTruthy d then
              upsert records2
                { date := d, platform := "Kalshi", daily_total_value := kVal,
                  unit := "USD(trading_volume_change, T+1)",
                  source := "https://www.kalshidata.com/api/analytics/historical-snapshots",
                  method := kMethod, status := kStatus }
            else records2
          | none => records2
        let sorted := sortByKey recPairLt records3
        .ok (trimRecords (cutoffOf today) sorted)

/-!
Embedding of `scripts/generate_prediction_markets_today.py`: the three platform
estimators and the per-platform `try`/`except` of `main`. The heterogeneous
`derived` dicts are flattened to an association list of numeric entries plus an
optional method tag.
-/

/-- The platform estimate dict produced by each estimator of the today script
(`primary` is flattened into `value`, `unit`, `source_metric`; `auxiliary`
into the two count fields). -/
structure PlatRes where
  value : Option ℚ
  unit : String
  source_metric : String
  status : String
  note : String
  derived : List (String × Option ℚ)
  derivedMethod : Option String
  newMarketCount : Option ℤ
  newContractListingCount : Option ℤ
deriving DecidableEq

/-- Pagination loop of the today script's `polymarket`, which additionally
counts the markets with nonzero `volume24hr`. -/
def polyPagesT (fetch : ℕ → Except String (ListResp PMarket)) :
    ℕ → ℕ → ℚ → ℕ → ℕ → ℕ → Except String (ℚ × ℕ × ℕ × ℕ)
  | 0, _, total, mcount, nz, fetches => .ok (total, mcount, nz, fetches)
  | fuel + 1, page, total, mcount, nz, fetches =>
    match fetch page with
    | .error e => .error e
    | .ok .notList => .ok (total, mcount, nz, fetches + 1)
    | .ok (.ofList arr) =>
      if arr.isEmpty then .ok (total, mcount, nz, fetches + 1)
      else
        let mcount' := mcount + arr.length
        let total' := total + pmSum arr
        let nz' := nz + arr.countP (fun m => decide (0 < pyOrQ m.volume24hr 0))
        if arr.length < 200 then .ok (total', mcount', nz', fetches + 1)
        else polyPagesT fetch fuel (page + 1) total' mcount' nz' (fetches + 1)

/-- The result dict built by the today script's `polymarket` from the loop
totals. -/
def polymarketResult (total : ℚ) (mcount nz : ℕ) : PlatRes :=
  { value := if 0 < mcount then some (pyRound2 total) else none,
    unit := "USDC(volume24hr sum, proxy)",
    source_metric := "sum(markets.volume24hr)",
    status := if 0 < mcount then "partial" else "missing",
    note := if 0 < mcount then
        s!"公开Gamma接口分页抓取{mcount}个活跃未结算市场，以volume24hr汇总作为近似（24h滚动）。"
      else "Polymarket接口失败。",
    derived := [("traded_contract_entries", some (nz : ℚ)), ("traded_markets", some (nz : ℚ))],
    derivedMethod := none,
    newMarketCount := none, newContractListingCount := none }

/-- The today script's `polymarket` estimator. -/
def polymarket (attempt : ℕ → ℕ → Except String (ListResp PMarket)) :
    Except String PlatRes :=
  match polyPagesT (fun page => http_get_json (attempt page) 4) 4 0 0 0 0 0 with
  | .error e => .error e
  | .ok (total, mcount, nz, _) => .ok (polymarketResult total mcount nz)

/-- One Manifold market row of `/v0/markets` as read by the today script. -/
structure MMarket where
  createdTime : Option ℤ
  outcomeType : Option String
deriving DecidableEq

/-- Python `str.upper()` (ASCII, which is all `outcomeType` carries). -/
def pyUpper (s : String) : String := ⟨s.data.map Char.toUpper⟩

/-- Contract-id set accumulation of the today script's `manifold` loop: ids of
today's bets with a truthy `contractId`, kept as a duplicate-free list. -/
def addContracts (startSec : ℚ) (cset : List String) (bets : List Bet) : List String :=
  bets.foldl (fun s b =>
    if betBeforeStart startSec b then s
    else
      match b.contractId with
      | none => s
      | some c => if pyTruthy c && !(s.contains c) then s ++ [c] else s) cset

/-- Pagination loop of the today script's `manifold`. -/
def manifoldPagesT (fetch : Option ℤ → Except String (ListResp Bet)) (startSec : ℚ) :
    ℕ → Option ℤ → ℚ → List String → ℕ → Except String (ℚ × List String × ℕ)
  | 0, _, vol, cset, scanned => .ok (vol, cset, scanned)
  | fuel + 1, before, vol, cset, scanned =>
    match fetch before with
    | .error e => .error e
    | .ok .notList => .ok (vol, cset, scanned)
    | .ok (.ofList bets) =>
      if bets.isEmpty then .ok (vol, cset, scanned)
      else
        let scanned' := scanned + bets.length
        let vol' := vol + betsVolSum startSec bets
        let cset' := addContracts startSec cset bets
        match betsMinTs bets with
        | none => .ok (vol', cset', scanned')
        | some m =>
          if bets.any (betBeforeStart startSec) then .ok (vol', cset', scanned')
          else manifoldPagesT fetch startSec fuel (some (m - 1)) vol' cset' scanned'

/-- Whether a market's `createdTime` is at or after the window start. -/
def mktSinceStart (startSec : ℚ) (x : MMarket) : Bool :=
  decide (startSec ≤ (pyOrZ x.createdTime : ℚ) / 1000)

/-- The result dict built by the today script's `manifold`. -/
def manifoldResult (vol : ℚ) (cset : List String) (scanned : ℕ) (mkt ctr : ℤ) : PlatRes :=
  { value := some (pyRound2 vol),
    unit := "shares(today, paged)",
    source_metric := "sum(abs(bets.shares))",
    status := "partial",
    note := s!"分页扫描{scanned}条bets，累加当日shares绝对值近似。",
    derived := [("traded_contract_entries", some (cset.length : ℚ)),
                ("bets_scanned", some (scanned : ℚ))],
    derivedMethod := none,
    newMarketCount := some mkt, newContractListingCount := some ctr }

/-- The today script's `manifold` estimator: bet paging plus a markets call
for the auxiliary counts; the status is always `partial` and the value always
present. Iterating a non-list markets response raises in Python, modelled as
an error. -/
def manifold (attemptBets : Option ℤ → ℕ → Except String (ListResp Bet))
    (attemptMkts : ℕ → Except String (ListResp MMarket)) (startSec : ℚ) :
    Except String PlatRes :=
  match manifoldPagesT (fun before => http_get_json (attemptBets before) 4) startSec 4 none 0 [] 0 with
  | .error e => .error e
  | .ok (vol, cset, scanned) =>
    match http_get_json attemptMkts 4 with
    | .error e => .error e
    | .ok .notList => .error "TypeError: market rows are not dicts"
    | .ok (.ofList m) =>
      let mkt : ℤ := m.countP (mktSinceStart startSec)
      let ctr : ℤ := (m.filter (mktSinceStart startSec)).foldl
        (fun acc x => acc + (if pyUpper (x.outcomeType.getD "") == "BINARY" then 2 else 1)) 0
      .ok (manifoldResult vol cset scanned mkt ctr)

/-- One Kalshi trade row; `created_time` is modelled as the POSIX seconds that
`parse_iso_utc` produces from the ISO timestamp string. -/
structure KTrade where
  count_fp : Option ℚ
  count : Option ℚ
  ticker : Option String
  created_time : ℚ
deriving DecidableEq

/-- Response of `/trade-api/v2/markets/trades`: `data.get("trades", [])` and
`data.get("cursor")` when the JSON is a dict, else no trades and no cursor. -/
inductive KTradesResp where
  | notDict
  | dict (trades : List KTrade) (cursor : Option String)
deriving DecidableEq

/-- One Kalshi market row of `/trade-api/v2/markets`; `created_time` again
stands for the parsed timestamp of the string field (absent when the field is
falsy). -/
structure KMarket where
  volume_24h_fp : Option ℚ
  volume_24h : Option ℚ
  open_interest_fp : Option ℚ
  open_interest : Option ℚ
  created_time : Option ℚ
deriving DecidableEq

/-- Per-page accumulation of `float(t.get("count_fp") or t.get("count") or 0)`. -/
def kTradeCount (t : KTrade) : ℚ := pyOrQ t.count_fp (pyOrQ t.count 0)

/-- Ticker set accumulation (`if t.get("ticker"): tickers.add(...)`). -/
def addTickers (tickers : List String) (arr : List KTrade) : List String :=
  arr.foldl (fun s t =>
    match t.ticker with
    | none => s
    | some tk => if pyTruthy tk && !(s.contains tk) then s ++ [tk] else s) tickers

/-- Cursor pagination loop of the today script's `kalshi` over the official
trade feed: up to 20 pages, stopping on an empty page (keeping the cursor the
page was requested with) or on a falsy next cursor. Returns pages, scanned,
total, tickers, first/last trade timestamps and the final cursor value. -/
def kalshiTrades (fetch : Option String → Except String KTradesResp) :
    ℕ → Option String → ℕ → ℕ → ℚ → List String → Option ℚ → Option ℚ →
    Except String (ℕ × ℕ × ℚ × List String × Option ℚ × Option ℚ × Option String)
  | 0, cursor, pages, scanned, total, tickers, firstTs, lastTs =>
    .ok (pages, scanned, total, tickers, firstTs, lastTs, cursor)
  | fuel + 1, cursor, pages, scanned, total, tickers, firstTs, lastTs =>
    match fetch cursor with
    | .error e => .error e
    | .ok resp =>
      let arr := match resp with | .notDict => [] | .dict ts _ => ts
      match harr : arr with
      | [] => .ok (pages, scanned, total, tickers, firstTs, lastTs, cursor)
      | a0 :: rest =>
        let pages' := pages + 1
        let scanned' := scanned + arr.length
        let firstTs' := match firstTs with | none => some a0.created_time | some t => some t
        let lastTs' := some ((arr.getLast (by simp [harr])).created_time)
        let total' := total + arr.foldl (fun acc t => acc + kTradeCount t) 0
        let tickers' := addTickers tickers arr
        let cursor' := match resp with | .notDict => none | .dict _ c => c
        if pyTruthyOpt cursor' then
          kalshiTrades fetch fuel cursor' pages' scanned' total' tickers' firstTs' lastTs'
        else
          .ok (pages', scanned', total', tickers', firstTs', lastTs', cursor')

/-- The result dict built by the today script's `kalshi` from the branch
variables `value, unit, source, method, status` and the note. -/
def kalshiResult (value : Option ℚ) (unit source method status note : String)
    (tickers : List String) (scanned pages : ℕ) (mkts : List KMarket)
    (v24nonzero : ℕ) (sumOi : ℚ) (newMarkets : ℕ) : PlatRes :=
  { value := value, unit := unit, source_metric := source, status := status, note := note,
    derived := [("traded_contract_entries", some (tickers.length : ℚ)),
                ("trades_scanned", some (scanned : ℚ)),
                ("trades_pages_sampled", some (pages : ℚ)),
                ("markets_sampled", some (mkts.length : ℚ)),
                ("volume24h_nonzero_markets", some (v24nonzero : ℚ)),
                ("open_interest_sum_markets_sample", some sumOi)],
    derivedMethod := some method,
    newMarketCount := some (newMarkets : ℤ),
    newContractListingCount := some ((newMarkets : ℤ) * 2) }

/-- The today script's `kalshi` estimator: exact sum over the official trade
feed when pagination completed (falsy final cursor), rate extrapolation when a
cursor remained, `missing` when nothing was scanned; the branch variables are
assigned as in the script and the dict built once at the end. `nowSec`,
`startSec`, `endSec` are the POSIX seconds of `now_utc`, `start_utc`,
`end_utc`. Numerals interpolate with Lean rational formatting, which differs
from CPython float formatting; no claim depends on the note text. -/
def kalshi (attemptTrades : Option String → ℕ → Except String KTradesResp)
    (attemptMkts : ℕ → Except String (ListResp KMarket))
    (nowSec startSec endSec : ℚ) : Except String PlatRes :=
  let endCap := if nowSec < endSec then nowSec else endSec
  match kalshiTrades (fun c => http_get_json (attemptTrades c) 3) 20 none 0 0 0 [] none none with
  | .error e => .error e
  | .ok (pages, scanned, total, tickers, firstTs, lastTs, cursor) =>
    match http_get_json attemptMkts 4 with
    | .error e => .error e
    | .ok mresp =>
      let mkts := match mresp with | .notList => [] | .ofList ms => ms
      let v24 := fun (x : KMarket) => pyOrQ x.volume_24h_fp (pyOrQ x.volume_24h 0)
      let v24nonzero := mkts.countP (fun x => decide (0 < v24 x))
      let sumV24 := pyRound2 (mkts.foldl (fun acc x => acc + v24 x) 0)
      let sumOi := pyRound2 (mkts.foldl
        (fun acc x => acc + pyOrQ x.open_interest_fp (pyOrQ x.open_interest 0)) 0)
      let newMarkets := mkts.countP (fun x =>
        match x.created_time with
        | none => false
        | some t => decide (startSec ≤ t) && decide (t < endSec))
      let checkNote :=
        s!" 字段校验：yes_bid/no_bid为美分报价（见*_dollars）；open_interest/open_interest_fp为持仓合约数。markets抽样200个中volume_24h非零{v24nonzero}个（sum={sumV24}）。"
      let branch : Option ℚ × String × String × String × String × String :=
        if 0 < scanned && firstTs.isSome && lastTs.isSome then
          if pyTruthyOpt cursor then
            let span := max 1 (firstTs.getD 0 - lastTs.getD 0)
            let elapsed := max 1 (endCap - startSec)
            let est := total / span * elapsed
            let spanMin := pyRoundTo 1 (span / 60)
            (some (pyRound2 est), "contracts(sampled trade-rate extrapolation)",
              "sum(first_20_pages.trades.count_fp) * elapsed_day/sample_span",
              "extrapolated_from_official_trade_feed", "partial",
              s!"今日全量交易页数过大，采用可验证替代：官方/markets/trades前{pages}页样本（{scanned}条）覆盖{spanMin}分钟，按同速率外推至今日已过时长。")
          else
            (some (pyRound2 total), "contracts(trades.count_fp, Shanghai day exact)",
              "sum(/markets/trades.count_fp, min_ts~max_ts)", "exact", "ok",
              s!"Kalshi官方交易流精确汇总：{pages}页/{scanned}条成交，覆盖{tickers.length}个ticker。")
        else (none, "missing", "n/a", "missing", "missing", "Kalshi接口异常。")
      match branch with
      | (value, unit, source, method, status, noteCore) =>
        .ok (kalshiResult value unit source method status (noteCore ++ checkNote)
          tickers scanned pages mkts v24nonzero sumOi newMarkets)

/-- The record built by the `except` branch of today's `main` for a platform
whose estimator raised `e`. -/
def platformFallback (e : String) : PlatRes :=
  { value := none, unit := "接口失败", source_metric := "n/a", status := "missing",
    note := "接口重试后仍失败：" ++ e,
    derived := [("traded_contract_entries", none)], derivedMethod := none,
    newMarketCount := none, newContractListingCount := none }

/-- `try: platforms[name] = fn(...) except Exception as e: platforms[name] =
<fallback>` for one platform. -/
def runPlatform (r : Except String PlatRes) : PlatRes :=
  match r with
  | .ok v => v
  | .error e => platformFallback e

/-- The platforms dict built by the today script's `main`: each estimator runs
inside its own `try`/`except`, so each entry depends only on its own
estimator's outcome. -/
def todayPlatforms (p m k : Except String PlatRes) : PlatRes × PlatRes × PlatRes :=
  (runPlatform p, runPlatform m, runPlatform k)

theorem upsert_idem (l : List DailyRec) (rec : DailyRec) :
    upsert (upsert l rec) rec = upsert l rec := by
  induction l with
  | nil => simp [upsert]
  | cons r rs ih =>
    by_cases h : (r.date == rec.date && r.platform == rec.platform) = true
    · simp [upsert, h]
    · have h' : (r.date == rec.date && r.platform == rec.platform) = false :=
        Bool.eq_false_iff.mpr h
      simp [upsert, h', ih]

theorem upsert_countP (l : List DailyRec) (rec : DailyRec)
    (h : l.countP (fun r => r.date == rec.date && r.platform == rec.platform) ≤ 1) :
    (upsert l rec).countP (fun r => r.date == rec.date && r.platform == rec.platform) = 1 := by
  induction l with
  | nil => simp [upsert, List.countP_cons]
  | cons r rs ih =>
    by_cases hr : (r.date == rec.date && r.platform == rec.platform) = true
    · have hcount : rs.countP (fun r => r.date == rec.date && r.platform == rec.platform) = 0 := by
        rw [List.countP_cons, hr, if_pos rfl] at h
        omega
      simp [upsert, hr, List.countP_cons, hcount]
    · have hr' : (r.date == rec.date && r.platform == rec.platform) = false :=
        Bool.eq_false_iff.mpr hr
      rw [List.countP_cons] at h
      simp only [hr', Bool.false_eq_true, if_false, Nat.add_zero] at h
      simp [upsert, hr', List.countP_cons, ih h]

theorem replaceByDate_eq_none (l : List CryptoRec) (rec : CryptoRec) :
    replaceByDate l rec = none ↔ ∀ r ∈ l, (r.date == rec.date) = false := by
  induction l with
  | nil => simp [replaceByDate]
  | cons r rs ih =>
    by_cases h : (r.date == rec.date) = true
    · simp only [replaceByDate, h, if_true]
      constructor
      · intro hcontra
        exact absurd hcontra (by simp)
      · intro hall
        exact absurd (hall r (List.mem_cons_self r rs)) (by simp [h])
    · have h' : (r.date == rec.date) = false := Bool.eq_false_iff.mpr h
      have hstep : replaceByDate (r :: rs) rec = (replaceByDate rs rec).map (r :: ·) := by
        simp [replaceByDate, h']
      rw [hstep, Option.map_eq_none', ih]
      constructor
      · intro hall x hx
        rcases List.mem_cons.mp hx with rfl | hx'
        · exact h'
        · exact hall x hx'
      · intro hall x hx
        exact hall x (List.mem_cons_of_mem r hx)

theorem replaceByDate_some_self (l l' : List CryptoRec) (rec : CryptoRec)
    (h : replaceByDate l rec = some l') : replaceByDate l' rec = some l' := by
  induction l generalizing l' with
  | nil => simp [replaceByDate] at h
  | cons r rs ih =>
    by_cases hr : (r.date == rec.date) = true
    · simp only [replaceByDate, hr, if_true, Option.some.injEq] at h
      subst h
      simp [replaceByDate]
    · have hr' : (r.date == rec.date) = false := Bool.eq_false_iff.mpr hr
      have hstep : replaceByDate (r :: rs) rec = (replaceByDate rs rec).map (r :: ·) := by
        simp [replaceByDate, hr']
      rw [hstep, Option.map_eq_some'] at h
      rcases h with ⟨l'', hl'', rfl⟩
      rw [show replaceByDate (r :: l'') rec = (replaceByDate l'' rec).map (r :: ·) by
        simp [replaceByDate, hr']]
      rw [ih l'' hl'']
      rfl

theorem replaceByDate_self (s : List CryptoRec) (rec : CryptoRec)
    (hall : ∀ r ∈ s, r.date = rec.date → r = rec)
    (hex : ∃ r ∈ s, r.date = rec.date) :
    replaceByDate s rec = some s := by
  induction s with
  | nil => simp at hex
  | cons r rs ih =>
    by_cases hr : (r.date == rec.date) = true
    · have : r = rec := hall r (List.mem_cons_self r rs) (by simpa using hr)
      subst this
      simp [replaceByDate, hr]
    · have hr' : (r.date == rec.date) = false := Bool.eq_false_iff.mpr hr
      have hex' : ∃ x ∈ rs, x.date = rec.date := by
        rcases hex with ⟨x, hx, hdx⟩
        rcases List.mem_cons.mp hx with rfl | hx'
        · exact absurd (by simpa using hdx) (by simpa using hr)
        · exact ⟨x, hx', hdx⟩
      have := ih (fun x hx hdx => hall x (List.mem_cons_of_mem r hx) hdx) hex'
      simp [replaceByDate, hr', this]

theorem upsert_record_idem (l : List CryptoRec) (rec : CryptoRec) :
    upsert_record (upsert_record l rec) rec = upsert_record l rec := by
  unfold upsert_record
  cases hrep : replaceByDate l rec with
  | some l' => rw [replaceByDate_some_self l l' rec hrep]
  | none =>
    have hnone := (replaceByDate_eq_none l rec).mp hrep
    have hmem : ∀ r ∈ sortByKey cryptoDateLt (l ++ [rec]), r.date = rec.date → r = rec := by
      intro r hr hdr
      have hr' : r ∈ l ++ [rec] := (sortByKey_perm cryptoDateLt (l ++ [rec])).mem_iff.mp hr
      rcases List.mem_append.mp hr' with hl | hsing
      · have := hnone r hl
        rw [hdr] at this
        simp at this
      · simpa using hsing
    have hex : ∃ r ∈ sortByKey cryptoDateLt (l ++ [rec]), r.date = rec.date := by
      refine ⟨rec, ?_, rfl⟩
      exact (sortByKey_perm cryptoDateLt (l ++ [rec])).mem_iff.mpr
        (List.mem_append.mpr (Or.inr (List.mem_singleton_self rec)))
    rw [replaceByDate_self _ rec hmem hex]

theorem replaceByDate_countP (l l' : List CryptoRec) (rec : CryptoRec)
    (h : replaceByDate l rec = some l') :
    l'.countP (fun r => r.date == rec.date) = l.countP (fun r => r.date == rec.date)
    ∧ 1 ≤ l.countP (fun r => r.date == rec.date) := by
  induction l generalizing l' with
  | nil => simp [replaceByDate] at h
  | cons r rs ih =>
    by_cases hr : (r.date == rec.date) = true
    · simp only [replaceByDate, hr, if_true, Option.some.injEq] at h
      subst h
      simp [List.countP_cons, hr]
    · have hr' : (r.date == rec.date) = false := Bool.eq_false_iff.mpr hr
      have hstep : replaceByDate (r :: rs) rec = (replaceByDate rs rec).map (r :: ·) := by
        simp [replaceByDate, hr']
      rw [hstep, Option.map_eq_some'] at h
      rcases h with ⟨l'', hl'', rfl⟩
      rcases ih l'' hl'' with ⟨h1, h2⟩
      constructor
      · simp [List.countP_cons, hr', h1]
      · simpa [List.countP_cons, hr'] using h2

theorem upsert_record_countP (l : List CryptoRec) (rec : CryptoRec)
    (h : l.countP (fun r => r.date == rec.date) ≤ 1) :
    (upsert_record l rec).countP (fun r => r.date == rec.date) = 1 := by
  unfold upsert_record
  cases hrep : replaceByDate l rec with
  | some l' =>
    rcases replaceByDate_countP l l' rec hrep with ⟨h1, h2⟩
    show l'.countP (fun r => r.date == rec.date) = 1
    omega
  | none =>
    have hnone := (replaceByDate_eq_none l rec).mp hrep
    have hperm := (sortByKey_perm cryptoDateLt (l ++ [rec])).countP_eq
      (fun r => r.date == rec.date)
    rw [hperm, List.countP_append]
    have hl : l.countP (fun r => r.date == rec.date) = 0 :=
      List.countP_eq_zero.mpr (by intro a ha; simpa using hnone a ha)
    simp [hl, List.countP_cons]

/-- C6: upserting the same record twice by its composite key (`(date,
platform)` for the prediction store, the date within one asset's series for
the crypto store) is idempotent, and when the input satisfies the key
uniqueness invariant the result holds exactly one record for the key; the
merge therefore reproduces the same stored record on a re-run. -/
theorem C6_upsert_idempotent :
    (∀ (l : List DailyRec) (rec : DailyRec), upsert (upsert l rec) rec = upsert l rec)
  ∧ (∀ (l : List CryptoRec) (rec : CryptoRec),
      upsert_record (upsert_record l rec) rec = upsert_record l rec)
  ∧ (∀ (l : List DailyRec) (rec : DailyRec),
      l.countP (fun r => r.date == rec.date && r.platform == rec.platform) ≤ 1 →
      (upsert l rec).countP (fun r => r.date == rec.date && r.platform == rec.platform) = 1)
  ∧ (∀ (l : List CryptoRec) (rec : CryptoRec),
      l.countP (fun r => r.date == rec.date) ≤ 1 →
      (upsert_record l rec).countP (fun r => r.date == rec.date) = 1) :=
  ⟨upsert_idem, upsert_record_idem, upsert_countP, upsert_record_countP⟩

/-- Witness for C6: a concrete one-record store upserted twice. -/
theorem C6_upsert_idempotent_witness :
    (upsert (upsert [] ⟨"2025-01-01", "Polymarket", none, "u", "s", "m", "missing"⟩)
        ⟨"2025-01-01", "Polymarket", none, "u", "s", "m", "missing"⟩
      = upsert [] ⟨"2025-01-01", "Polymarket", none, "u", "s", "m", "missing"⟩)
  ∧ ((upsert [] ⟨"2025-01-01", "Polymarket", none, "u", "s", "m", "missing"⟩).countP
      (fun r => r.date == "2025-01-01" && r.platform == "Polymarket") = 1)
  ∧ ((upsert_record [] ⟨some "2025-01-01", none, none, none, none, none, "sm", "s", "u"⟩).countP
      (fun r => r.date == some "2025-01-01") = 1) := by
  refine ⟨C6_upsert_idempotent.1 [] _, ?_, ?_⟩
  · exact C6_upsert_idempotent.2.2.1 [] ⟨"2025-01-01", "Polymarket", none, "u", "s", "m", "missing"⟩
      (by decide)
  · exact C6_upsert_idempotent.2.2.2 [] ⟨some "2025-01-01", none, none, none, none, none, "sm", "s", "u"⟩
      (by decide)

theorem cryptoDateLt_asymm (a b : CryptoRec) (h : cryptoDateLt a b = true) :
    cryptoDateLt b a = false :=
  charListLt_asymm _ _ h

theorem cryptoDateLt_negtrans (a b c : CryptoRec)
    (h1 : cryptoDateLt b a = false) (h2 : cryptoDateLt c b = false) :
    cryptoDateLt c a = false :=
  charListLt_negtrans _ _ _ h2 h1

theorem replaceByDate_map_date (l l' : List CryptoRec) (rec : CryptoRec)
    (h : replaceByDate l rec = some l') :
    l'.map (fun r => r.date) = l.map (fun r => r.date) := by
  induction l generalizing l' with
  | nil => simp [replaceByDate] at h
  | cons r rs ih =>
    by_cases hr : (r.date == rec.date) = true
    · simp only [replaceByDate, hr, if_true, Option.some.injEq] at h
      subst h
      have : rec.date = r.date := (by simpa using hr : r.date = rec.date).symm
      simp [this]
    · have hr' : (r.date == rec.date) = false := Bool.eq_false_iff.mpr hr
      have hstep : replaceByDate (r :: rs) rec = (replaceByDate rs rec).map (r :: ·) := by
        simp [replaceByDate, hr']
      rw [hstep, Option.map_eq_some'] at h
      rcases h with ⟨l'', hl'', rfl⟩
      simp [ih l'' hl'']

/-- C9: on an asset record list sorted ascending by date with at most one
record per date, `upsert_record` preserves both invariants. -/
theorem C9_crypto_upsert_invariants (l : List CryptoRec) (rec : CryptoRec)
    (hsort : l.Pairwise (fun a b => cryptoDateLt b a = false))
    (huniq : l.Pairwise (fun a b => a.date ≠ b.date)) :
    (upsert_record l rec).Pairwise (fun a b => cryptoDateLt b a = false)
  ∧ (upsert_record l rec).Pairwise (fun a b => a.date ≠ b.date) := by
  unfold upsert_record
  cases hrep : replaceByDate l rec with
  | some l' =>
    have hdates := replaceByDate_map_date l l' rec hrep
    constructor
    · show l'.Pairwise (fun a b => cryptoDateLt b a = false)
      have h1 : (l.map (fun r => r.date)).Pairwise
          (fun d e => charListLt (e.getD "").data (d.getD "").data = false) :=
        List.pairwise_map.mpr hsort
      rw [← hdates] at h1
      exact List.pairwise_map.mp h1
    · show l'.Pairwise (fun a b => a.date ≠ b.date)
      have h1 : (l.map (fun r => r.date)).Pairwise (fun d e => d ≠ e) :=
        List.pairwise_map.mpr huniq
      rw [← hdates] at h1
      exact List.pairwise_map.mp h1
  | none =>
    have hnone := (replaceByDate_eq_none l rec).mp hrep
    constructor
    · exact sortByKey_sorted cryptoDateLt cryptoDateLt_asymm cryptoDateLt_negtrans _
    · show (sortByKey cryptoDateLt (l ++ [rec])).Pairwise (fun a b => a.date ≠ b.date)
      have happ : (l ++ [rec]).Pairwise (fun a b => a.date ≠ b.date) := by
        rw [List.pairwise_append]
        refine ⟨huniq, List.pairwise_singleton _ _, ?_⟩
        intro a ha b hb
        rcases List.mem_singleton.mp hb with rfl
        intro hcontra
        have := hnone a ha
        rw [hcontra] at this
        simp at this
      exact ((sortByKey_perm cryptoDateLt (l ++ [rec])).pairwise_iff
        (fun h => Ne.symm h)).mpr happ

/-- Witness for C9 at a concrete singleton store. -/
theorem C9_crypto_upsert_invariants_witness :
    (upsert_record [⟨some "2025-01-01", none, none, none, none, none, "sm", "s", "u"⟩]
        ⟨some "2025-01-02", none, none, none, none, none, "sm", "s", "u"⟩).Pairwise
      (fun a b => cryptoDateLt b a = false)
  ∧ (upsert_record [⟨some "2025-01-01", none, none, none, none, none, "sm", "s", "u"⟩]
        ⟨some "2025-01-02", none, none, none, none, none, "sm", "s", "u"⟩).Pairwise
      (fun a b => a.date ≠ b.date) :=
  C9_crypto_upsert_invariants
    [⟨some "2025-01-01", none, none, none, none, none, "sm", "s", "u"⟩]
    ⟨some "2025-01-02", none, none, none, none, none, "sm", "s", "u"⟩
    (List.pairwise_singleton _ _) (List.pairwise_singleton _ _)

/-- Counterexample to C8 as stated: a malformed `crypto-data.json` is not
treated as "start fresh" — `read_json` has no exception handling, so
`load_or_init` propagates the JSON decode error and the job dies. -/
theorem C8_counterexample :
    load_or_init JsonFile.malformed JsonFile.absent JsonFile.absent "2025-03-31T00:00:00+00:00"
      = .error "json.decoder.JSONDecodeError" := rfl

/-- C8 amended: the prediction-markets history loader initialises an empty
record list on an absent or malformed file; the crypto loader starts fresh on
an absent file, but a malformed file raises out of `read_json` and is fatal to
the job (and a malformed legacy file equally raises). -/
theorem C8_amended :
    load_existing_records PredFile.absent = []
  ∧ load_existing_records PredFile.malformed = []
  ∧ read_json (α := CryptoDoc) JsonFile.absent = .ok none
  ∧ (∀ now : String, load_or_init JsonFile.absent JsonFile.absent JsonFile.absent now
      = .ok { assets := initAssets [], lastUpdate := now, source := "CoinGecko" })
  ∧ (∀ (l1 l2 : JsonFile LegacyDoc) (now : String),
      load_or_init JsonFile.malformed l1 l2 now = .error "json.decoder.JSONDecodeError")
  ∧ (∀ now : String, load_or_init (JsonFile.parsed CryptoDoc.other) JsonFile.malformed
      JsonFile.absent now = .error "json.decoder.JSONDecodeError") :=
  ⟨rfl, rfl, rfl, fun _ => rfl, fun _ _ _ => rfl, fun _ => rfl⟩

theorem isoChars_ne_nil (y : ℤ) (m d : ℕ) : isoChars y m d ≠ [] := by
  intro h
  rcases List.append_eq_nil.mp h with ⟨_, h2⟩
  exact List.cons_ne_nil _ _ h2

theorem isoOfDate_data (t : ℤ × ℕ × ℕ) : (isoOfDate t).data = isoChars t.1 t.2.1 t.2.2 := by
  rcases t with ⟨y, m, d⟩
  rfl

theorem cutoffOf_data_ne_nil (today : ℤ × ℕ × ℕ) : (cutoffOf today).data ≠ [] := by
  rw [cutoffOf, isoOfDate_data]
  exact isoChars_ne_nil _ _ _

/-- C3: for every stored record list and run date, the trim keeps exactly the
records whose date is at or after the cutoff and whose value is non-null (the
truthiness guard on the date is redundant because the cutoff string, today
minus 89 days in ISO form, is never empty), and the cutoff is by construction
`cutoffOf today`, the ISO date 89 days before today. -/
theorem C3_trim_exact (today : ℤ × ℕ × ℕ) (records : List DailyRec) :
    trimRecords (cutoffOf today) records
      = records.filter (fun r => !(pyLt r.date (cutoffOf today)) && r.daily_total_value.isSome)
  ∧ ∀ r : DailyRec,
      (r ∈ trimRecords (cutoffOf today) records ↔
        r ∈ records ∧ pyLt r.date (cutoffOf today) = false ∧ r.daily_total_value.isSome = true) := by
  have hcut := cutoffOf_data_ne_nil today
  have hpoint : ∀ r : DailyRec,
      (pyTruthy r.date && !(pyLt r.date (cutoffOf today)) && r.daily_total_value.isSome)
        = (!(pyLt r.date (cutoffOf today)) && r.daily_total_value.isSome) := by
    intro r
    cases hlt : pyLt r.date (cutoffOf today) with
    | true => simp [hlt]
    | false =>
      by_cases hd : (r.date == "") = true
      · exfalso
        have hdate : r.date = "" := by simpa using hd
        have : pyLt r.date (cutoffOf today) = true := by
          rw [hdate]
          exact charListLt_nil_left _ hcut
        rw [hlt] at this
        exact Bool.false_ne_true this
      · have hd' : (r.date == "") = false := Bool.eq_false_iff.mpr hd
        simp [pyTruthy, hd', hlt]
  constructor
  · exact List.filter_congr (fun r _ => hpoint r)
  · intro r
    rw [trimRecords, List.mem_filter, hpoint r]
    constructor
    · rintro ⟨hmem, hcond⟩
      have h12 := (Bool.and_eq_true _ _).mp hcond
      exact ⟨hmem, by simpa using h12.1, h12.2⟩
    · rintro ⟨hmem, h1, h2⟩
      exact ⟨hmem, by simp [h1, h2]⟩

/-- Counterexample to C4 as stated: the script never reads
`total_contracts_traded` (and computes no `robinhood_inferred_contracts` at
all). On a snapshot list whose two published dates carry
`total_contracts_traded` 100 and 150 and nothing else, the computed daily
value is `0` (the difference of the absent `trading_volume` fields defaulted
to 0), not 50. -/
theorem C4_counterexample :
    get_kalshi_published
      (fun _ => .ok (.dict
        [ ⟨some "2024-01-01", none, none, some 100⟩,
          ⟨some "2024-01-02", none, none, some 150⟩ ])) "2024-01-03"
      = .ok (some "2024-01-02", some 0, "ok",
          "published_daily_t_plus_1 from kalshidata historical-snapshots.trading_volume_change")
  ∧ get_kalshi_published
      (fun _ => .ok (.dict
        [ ⟨some "2024-01-01", none, none, some 100⟩,
          ⟨some "2024-01-02", none, none, some 150⟩ ])) "2024-01-03"
      ≠ .ok (some "2024-01-02", some 50, "ok",
          "published_daily_t_plus_1 from kalshidata historical-snapshots.trading_volume_change") := by
  constructor
  · with_unfolding_all decide
  · with_unfolding_all decide

/-- C4 amended: with two published dates `D1 < D2` whose `trading_volume`
values are 100 and 150 (the field the script actually subtracts when
`trading_volume_change` is absent), the computed daily change for `D2` is 50
with status `ok`; the script computes no `robinhood_inferred_contracts`. -/
theorem C4_amended :
    get_kalshi_published
      (fun _ => .ok (.dict
        [ ⟨some "2024-01-01", none, some 100, none⟩,
          ⟨some "2024-01-02", none, some 150, none⟩ ])) "2024-01-03"
      = .ok (some "2024-01-02", some 50, "ok",
          "published_daily_t_plus_1 from kalshidata historical-snapshots.trading_volume_change") := by
  with_unfolding_all decide

theorem polyPages_succ (fetch : ℕ → Except String (ListResp PMarket))
    (fuel page : ℕ) (total : ℚ) (count fetches : ℕ) :
    polyPages fetch (fuel + 1) page total count fetches =
      (match fetch page with
      | .error e => .error e
      | .ok .notList => .ok (total, count, fetches + 1)
      | .ok (.ofList arr) =>
        if arr.isEmpty then .ok (total, count, fetches + 1)
        else
          if arr.length < 200 then .ok (total + pmSum arr, count + arr.length, fetches + 1)
          else polyPages fetch fuel (page + 1) (total + pmSum arr) (count + arr.length)
            (fetches + 1)) := rfl

theorem polyPagesT_succ (fetch : ℕ → Except String (ListResp PMarket))
    (fuel page : ℕ) (total : ℚ) (mcount nz fetches : ℕ) :
    polyPagesT fetch (fuel + 1) page total mcount nz fetches =
      (match fetch page with
      | .error e => .error e
      | .ok .notList => .ok (total, mcount, nz, fetches + 1)
      | .ok (.ofList arr) =>
        if arr.isEmpty then .ok (total, mcount, nz, fetches + 1)
        else
          if arr.length < 200 then
            .ok (total + pmSum arr, mcount + arr.length,
              nz + arr.countP (fun m => decide (0 < pyOrQ m.volume24hr 0)), fetches + 1)
          else polyPagesT fetch fuel (page + 1) (total + pmSum arr) (mcount + arr.length)
            (nz + arr.countP (fun m => decide (0 < pyOrQ m.volume24hr 0))) (fetches + 1)) := rfl

theorem manifoldPages_succ (fetch : Option ℤ → Except String (ListResp Bet)) (startSec : ℚ)
    (fuel : ℕ) (before : Option ℤ) (vol : ℚ) (scanned : ℕ) :
    manifoldPages fetch startSec (fuel + 1) before vol scanned =
      (match fetch before with
      | .error e => .error e
      | .ok .notList => .ok (vol, scanned)
      | .ok (.ofList bets) =>
        if bets.isEmpty then .ok (vol, scanned)
        else
          match betsMinTs bets with
          | none => .ok (vol + betsVolSum startSec bets, scanned + bets.length)
          | some m =>
            if bets.any (betBeforeStart startSec) then
              .ok (vol + betsVolSum startSec bets, scanned + bets.length)
            else manifoldPages fetch startSec fuel (some (m - 1))
              (vol + betsVolSum startSec bets) (scanned + bets.length)) := rfl

theorem manifoldPagesT_succ (fetch : Option ℤ → Except String (ListResp Bet)) (startSec : ℚ)
    (fuel : ℕ) (before : Option ℤ) (vol : ℚ) (cset : List String) (scanned : ℕ) :
    manifoldPagesT fetch startSec (fuel + 1) before vol cset scanned =
      (match fetch before with
      | .error e => .error e
      | .ok .notList => .ok (vol, cset, scanned)
      | .ok (.ofList bets) =>
        if bets.isEmpty then .ok (vol, cset, scanned)
        else
          match betsMinTs bets with
          | none => .ok (vol + betsVolSum startSec bets, addContracts startSec cset bets,
              scanned + bets.length)
          | some m =>
            if bets.any (betBeforeStart startSec) then
              .ok (vol + betsVolSum startSec bets, addContracts startSec cset bets,
                scanned + bets.length)
            else manifoldPagesT fetch startSec fuel (some (m - 1))
              (vol + betsVolSum startSec bets) (addContracts startSec cset bets)
              (scanned + bets.length)) := rfl

theorem httpRetry_succ {J : Type} (attempt : ℕ → Except String J) (fuel i : ℕ) (err : String) :
    httpRetry attempt (fuel + 1) i err =
      (match attempt i with
      | .ok v => .ok v
      | .error e => httpRetry attempt fuel (i + 1) e) := rfl

/-- C5: when the first Polymarket page response holds fewer than 200 items,
pagination stops after that single page (exactly one page request in both
scripts), and the status is `partial` when the page held at least one item,
`missing` when it held none. -/
theorem C5_polymarket_single_page
    (attempt : ℕ → ℕ → Except String (ListResp PMarket)) (xs : List PMarket)
    (hfirst : http_get_json (attempt 0) 4 = .ok (.ofList xs)) (hlen : xs.length < 200) :
    polyPages (fun page => http_get_json (attempt page) 4) 4 0 0 0 0
      = .ok (pmSum xs, xs.length, 1)
  ∧ get_polymarket_value attempt
      = (if xs.length = 0 then .ok (none, "missing", "Polymarket Gamma API failed")
         else .ok (some (pyRound2 (pmSum xs)), "partial",
           s!"sum(markets.volume24hr), {xs.length} active unresolved markets"))
  ∧ polyPagesT (fun page => http_get_json (attempt page) 4) 4 0 0 0 0 0
      = .ok (pmSum xs, xs.length, xs.countP (fun m => decide (0 < pyOrQ m.volume24hr 0)), 1)
  ∧ polymarket attempt = .ok (polymarketResult (pmSum xs) xs.length
      (xs.countP (fun m => decide (0 < pyOrQ m.volume24hr 0)))) := by
  have hloop : polyPages (fun page => http_get_json (attempt page) 4) 4 0 0 0 0
      = .ok (pmSum xs, xs.length, 1) := by
    rw [show (4 : ℕ) = 3 + 1 from rfl, polyPages_succ]
    rw [hfirst]
    by_cases hempty : xs = []
    · subst hempty
      simp [pmSum]
    · have h1 : xs.isEmpty = false := by simpa using hempty
      simp [h1, hlen]
  have hloopT : polyPagesT (fun page => http_get_json (attempt page) 4) 4 0 0 0 0 0
      = .ok (pmSum xs, xs.length, xs.countP (fun m => decide (0 < pyOrQ m.volume24hr 0)), 1) := by
    rw [show (4 : ℕ) = 3 + 1 from rfl, polyPagesT_succ]
    rw [hfirst]
    by_cases hempty : xs = []
    · subst hempty
      simp [pmSum]
    · have h1 : xs.isEmpty = false := by simpa using hempty
      simp [h1, hlen]
  refine ⟨hloop, ?_, ?_⟩
  · rw [get_polymarket_value, hloop]
  · refine ⟨hloopT, ?_⟩
    rw [polymarket, hloopT]

/-- Witness for C5: a one-item first page. -/
theorem C5_polymarket_single_page_witness :
    polyPages (fun page => http_get_json
        ((fun _ _ => Except.ok (ListResp.ofList [⟨some 5⟩])) page) 4) 4 0 0 0 0
      = .ok (pmSum [⟨some 5⟩], 1, 1)
  ∧ get_polymarket_value (fun _ _ => Except.ok (ListResp.ofList [⟨some 5⟩]))
      = .ok (some (pyRound2 (pmSum [⟨some 5⟩])), "partial",
          "sum(markets.volume24hr), 1 active unresolved markets") := by
  have h := C5_polymarket_single_page (fun _ _ => Except.ok (ListResp.ofList [⟨some 5⟩]))
    [⟨some 5⟩] rfl (by decide)
  refine ⟨by simpa using h.1, ?_⟩
  have h2 := h.2.1
  simpa using h2

/-- C10: the Polymarket estimators of both scripts only ever return `partial`
or `missing`, never `ok`, even when pagination terminated normally; a returned
value is present exactly when the status is `partial` (i.e. at least one
market was retrieved). -/
theorem C10_polymarket_never_ok
    (attempt : ℕ → ℕ → Except String (ListResp PMarket))
    (v : Option ℚ) (s note : String) (r : PlatRes) :
    (get_polymarket_value attempt = .ok (v, s, note) →
      s ≠ "ok" ∧ (s = "partial" ∨ s = "missing") ∧ (v.isSome ↔ s = "partial"))
  ∧ (polymarket attempt = .ok r →
      r.status ≠ "ok" ∧ (r.status = "partial" ∨ r.status = "missing")
      ∧ (r.value.isSome ↔ r.status = "partial")) := by
  constructor
  · intro h
    rw [get_polymarket_value] at h
    cases hloop : polyPages (fun page => http_get_json (attempt page) 4) 4 0 0 0 0 with
    | error e => rw [hloop] at h; exact absurd h (by simp)
    | ok res =>
      rcases res with ⟨total, count, fetches⟩
      rw [hloop] at h
      replace h : (if count = 0 then
            Except.ok ((none : Option ℚ), ("missing" : String), ("Polymarket Gamma API failed" : String))
          else Except.ok (some (pyRound2 total), ("partial" : String),
            s!"sum(markets.volume24hr), {count} active unresolved markets"))
          = Except.ok (v, s, note) := h
      by_cases hc : count = 0
      · rw [if_pos hc] at h
        have h' := (Except.ok.injEq _ _).mp h
        have hv : v = none := (congrArg Prod.fst h').symm
        have hs : s = "missing" := (congrArg (fun t => t.2.1) h').symm
        subst hv; subst hs
        refine ⟨by decide, Or.inr rfl, by simp⟩
      · rw [if_neg hc] at h
        have h' := (Except.ok.injEq _ _).mp h
        have hv : v = some (pyRound2 total) := (congrArg Prod.fst h').symm
        have hs : s = "partial" := (congrArg (fun t => t.2.1) h').symm
        subst hv; subst hs
        refine ⟨by decide, Or.inl rfl, by simp⟩
  · intro h
    rw [polymarket] at h
    cases hloop : polyPagesT (fun page => http_get_json (attempt page) 4) 4 0 0 0 0 0 with
    | error e => rw [hloop] at h; exact absurd h (by simp)
    | ok res =>
      rcases res with ⟨total, mcount, nz, fetches⟩
      rw [hloop] at h
      replace h : Except.ok (polymarketResult total mcount nz) = Except.ok r := h
      have hr : r = polymarketResult total mcount nz := ((Except.ok.injEq _ _).mp h).symm
      subst hr
      by_cases hc : 0 < mcount
      · simp [polymarketResult, if_pos hc]
      · simp [polymarketResult, if_neg hc]

theorem C10_polymarket_never_ok_witness :
    ("missing" : String) ≠ "ok"
  ∧ (("missing" : String) = "partial" ∨ ("missing" : String) = "missing")
  ∧ ((none : Option ℚ).isSome ↔ ("missing" : String) = "partial") :=
  (C10_polymarket_never_ok (fun _ _ => Except.ok (ListResp.ofList []))
    none "missing" "Polymarket Gamma API failed"
    (platformFallback "unused")).1 rfl

/-- Counterexample to C1 as stated: in the daily-history script an estimator
exception is not caught by `main`. With the Polymarket estimator raising
`boom` and the other two estimators succeeding, the run aborts with `boom`: no
`missing` record is produced and the sibling results are discarded. -/
theorem C1_counterexample :
    updateMainRecords (2025, 3, 31) [] (.error "boom")
      (.ok (some 1, "partial", "m")) (.ok (some "2025-03-30", some 2, "ok", "k"))
      = .error "boom" := rfl

/-- C1 amended: in `generate_prediction_markets_today.py` each estimator runs
in its own `try`/`except`, a raised exception becomes a `missing` record with
the exception text in the note, and each platform's entry depends only on its
own estimator's outcome; in `update_prediction_markets_daily_history.py` the
estimators run bare in `main`, so a raised exception propagates (in call
order: Polymarket, then Manifold, then Kalshi) and aborts the whole run. -/
theorem C1_amended :
    (∀ (e : String) (m k : Except String PlatRes),
      todayPlatforms (.error e) m k = (platformFallback e, runPlatform m, runPlatform k))
  ∧ (∀ (p k : Except String PlatRes) (e : String),
      todayPlatforms p (.error e) k = (runPlatform p, platformFallback e, runPlatform k))
  ∧ (∀ (p m : Except String PlatRes) (e : String),
      todayPlatforms p m (.error e) = (runPlatform p, runPlatform m, platformFallback e))
  ∧ (∀ e : String, (platformFallback e).status = "missing"
      ∧ (platformFallback e).value = none
      ∧ (platformFallback e).note = "接口重试后仍失败：" ++ e)
  ∧ (∀ (today : ℤ × ℕ × ℕ) (records : List DailyRec) (e : String)
      (m : Except String (Option ℚ × String × String))
      (k : Except String (Option String × Option ℚ × String × String)),
      updateMainRecords today records (.error e) m k = .error e)
  ∧ (∀ (today : ℤ × ℕ × ℕ) (records : List DailyRec)
      (pv : Option ℚ) (ps pm e : String)
      (k : Except String (Option String × Option ℚ × String × String)),
      updateMainRecords today records (.ok (pv, ps, pm)) (.error e) k = .error e)
  ∧ (∀ (today : ℤ × ℕ × ℕ) (records : List DailyRec)
      (pv : Option ℚ) (ps pm : String) (mv : Option ℚ) (ms mm e : String),
      updateMainRecords today records (.ok (pv, ps, pm)) (.ok (mv, ms, mm)) (.error e)
        = .error e) :=
  ⟨fun _ _ _ => rfl, fun _ _ _ => rfl, fun _ _ _ => rfl,
   fun _ => ⟨rfl, rfl, rfl⟩, fun _ _ _ _ _ => rfl, fun _ _ _ _ _ _ _ => rfl,
   fun _ _ _ _ _ _ _ _ _ => rfl⟩

theorem kalshiTrades_succ (fetch : Option String → Except String KTradesResp)
    (fuel : ℕ) (cursor : Option String) (pages scanned : ℕ) (total : ℚ)
    (tickers : List String) (firstTs lastTs : Option ℚ) :
    kalshiTrades fetch (fuel + 1) cursor pages scanned total tickers firstTs lastTs =
      (match fetch cursor with
      | .error e => .error e
      | .ok resp =>
        let arr := match resp with | .notDict => [] | .dict ts _ => ts
        match harr : arr with
        | [] => .ok (pages, scanned, total, tickers, firstTs, lastTs, cursor)
        | a0 :: rest =>
          let firstTs' := match firstTs with | none => some a0.created_time | some t => some t
          let lastTs' := some ((arr.getLast (by simp [harr])).created_time)
          let cursor' := match resp with | .notDict => none | .dict _ c => c
          if pyTruthyOpt cursor' then
            kalshiTrades fetch fuel cursor' (pages + 1) (scanned + arr.length)
              (total + arr.foldl (fun acc t => acc + kTradeCount t) 0)
              (addTickers tickers arr) firstTs' lastTs'
          else
            .ok (pages + 1, scanned + arr.length,
              total + arr.foldl (fun acc t => acc + kTradeCount t) 0,
              addTickers tickers arr, firstTs', lastTs', cursor')) := rfl

theorem httpRetry_all_fail {J : Type} (attempt : ℕ → Except String J) (es : ℕ → String) :
    ∀ (fuel start : ℕ) (err : String), 0 < fuel →
    (∀ i, i < fuel → attempt (start + i) = .error (es (start + i))) →
    httpRetry attempt fuel start err = .error (es (start + fuel - 1)) := by
  intro fuel
  induction fuel with
  | zero => intro start err h; omega
  | succ fuel ih =>
    intro start err _ hall
    rw [httpRetry_succ]
    have h0 : attempt start = .error (es start) := by
      have := hall 0 (by omega)
      simpa using this
    rw [h0]
    show httpRetry attempt fuel (start + 1) (es start) = .error (es (start + (fuel + 1) - 1))
    cases fuel with
    | zero => simp [httpRetry]
    | succ fuel' =>
      have hall' : ∀ i, i < fuel' + 1 → attempt (start + 1 + i) = .error (es (start + 1 + i)) := by
        intro i hi
        have := hall (i + 1) (by omega)
        have harith : start + (i + 1) = start + 1 + i := by omega
        rw [harith] at this
        exact this
      have := ih (start + 1) (es start) (by omega) hall'
      rw [this]
      have harith : start + 1 + (fuel' + 1) - 1 = start + (fuel' + 1 + 1) - 1 := by omega
      rw [harith]

theorem http_get_json_all_fail {J : Type} (attempt : ℕ → Except String J) (es : ℕ → String)
    (retries : ℕ) (hpos : 0 < retries)
    (hall : ∀ i, i < retries → attempt i = .error (es i)) :
    http_get_json attempt retries = .error (es (retries - 1)) := by
  rw [http_get_json]
  have := httpRetry_all_fail attempt es retries 0 "None" hpos (by simpa using hall)
  simpa using this

theorem get_polymarket_value_shape (attempt : ℕ → ℕ → Except String (ListResp PMarket))
    (v : Option ℚ) (s n : String)
    (h : get_polymarket_value attempt = .ok (v, s, n)) :
    (v = none ∧ s = "missing") ∨ (v.isSome = true ∧ s = "partial") := by
  rw [get_polymarket_value] at h
  cases hloop : polyPages (fun page => http_get_json (attempt page) 4) 4 0 0 0 0 with
  | error e => rw [hloop] at h; exact absurd h (by simp)
  | ok res =>
    rcases res with ⟨total, count, fetches⟩
    rw [hloop] at h
    replace h : (if count = 0 then
          Except.ok ((none : Option ℚ), ("missing" : String), ("Polymarket Gamma API failed" : String))
        else Except.ok (some (pyRound2 total), ("partial" : String),
          s!"sum(markets.volume24hr), {count} active unresolved markets"))
        = Except.ok (v, s, n) := h
    by_cases hc : count = 0
    · rw [if_pos hc] at h
      have h' := (Except.ok.injEq _ _).mp h
      exact Or.inl ⟨(congrArg Prod.fst h').symm, (congrArg (fun t => t.2.1) h').symm⟩
    · rw [if_neg hc] at h
      have h' := (Except.ok.injEq _ _).mp h
      refine Or.inr ⟨?_, (congrArg (fun t => t.2.1) h').symm⟩
      have hv : v = some (pyRound2 total) := (congrArg Prod.fst h').symm
      rw [hv]
      rfl

theorem get_manifold_value_shape (attempt : Option ℤ → ℕ → Except String (ListResp Bet))
    (startSec : ℚ) (v : Option ℚ) (s n : String)
    (h : get_manifold_value attempt startSec = .ok (v, s, n)) :
    (v = none ∧ s = "missing") ∨ (v.isSome = true ∧ s = "partial") := by
  rw [get_manifold_value] at h
  cases hloop : manifoldPages (fun before => http_get_json (attempt before) 4) startSec 4 none 0 0 with
  | error e => rw [hloop] at h; exact absurd h (by simp)
  | ok res =>
    rcases res with ⟨vol, scanned⟩
    rw [hloop] at h
    replace h : (if scanned = 0 then
          Except.ok ((none : Option ℚ), ("missing" : String), ("Manifold bets API failed" : String))
        else Except.ok (some (pyRound2 vol), ("partial" : String),
          s!"sum(abs(bets.shares)) from paged recent bets, scanned={scanned}"))
        = Except.ok (v, s, n) := h
    by_cases hc : scanned = 0
    · rw [if_pos hc] at h
      have h' := (Except.ok.injEq _ _).mp h
      exact Or.inl ⟨(congrArg Prod.fst h').symm, (congrArg (fun t => t.2.1) h').symm⟩
    · rw [if_neg hc] at h
      have h' := (Except.ok.injEq _ _).mp h
      refine Or.inr ⟨?_, (congrArg (fun t => t.2.1) h').symm⟩
      have hv : v = some (pyRound2 vol) := (congrArg Prod.fst h').symm
      rw [hv]
      rfl

theorem kalshiPublishedResult_shape (arr : List Snapshot) (todayLocal : String)
    (d : Option String) (v : Option ℚ) (s n : String)
    (h : kalshiPublishedResult arr todayLocal = .ok (d, v, s, n)) :
    (v = none ∧ s = "missing") ∨ (v.isSome = true ∧ s = "ok") := by
  rw [kalshiPublishedResult] at h
  cases hlast : (kalshiPublished arr todayLocal).getLast? with
  | none =>
    rw [hlast] at h
    have h' := (Except.ok.injEq _ _).mp h
    exact Or.inl ⟨(congrArg (fun t => t.2.1) h').symm, (congrArg (fun t => t.2.2.1) h').symm⟩
  | some latest =>
    rw [hlast] at h
    replace h : (match kalshiDaily (kalshiPublished arr todayLocal) latest with
        | none => Except.ok (latest.date, (none : Option ℚ), ("missing" : String),
            ("Kalshi trading volume daily change missing" : String))
        | some dv => Except.ok (latest.date, some (pyRound2 dv), "ok",
            "published_daily_t_plus_1 from kalshidata historical-snapshots.trading_volume_change"))
        = Except.ok (d, v, s, n) := h
    cases hd : kalshiDaily (kalshiPublished arr todayLocal) latest with
    | none =>
      rw [hd] at h
      have h' := (Except.ok.injEq _ _).mp h
      exact Or.inl ⟨(congrArg (fun t => t.2.1) h').symm, (congrArg (fun t => t.2.2.1) h').symm⟩
    | some dv =>
      rw [hd] at h
      have h' := (Except.ok.injEq _ _).mp h
      refine Or.inr ⟨?_, (congrArg (fun t => t.2.2.1) h').symm⟩
      have hv : v = some (pyRound2 dv) := (congrArg (fun t => t.2.1) h').symm
      rw [hv]
      rfl

theorem get_kalshi_published_shape (attempt : ℕ → Except String SnapResp)
    (todayLocal : String) (d : Option String) (v : Option ℚ) (s n : String)
    (h : get_kalshi_published attempt todayLocal = .ok (d, v, s, n)) :
    (v = none ∧ s = "missing") ∨ (v.isSome = true ∧ s = "ok") := by
  rw [get_kalshi_published] at h
  cases hhttp : http_get_json attempt 4 with
  | error e => rw [hhttp] at h; exact absurd h (by simp)
  | ok resp =>
    rw [hhttp] at h
    exact kalshiPublishedResult_shape _ todayLocal d v s n h

theorem polymarket_shape (attempt : ℕ → ℕ → Except String (ListResp PMarket))
    (r : PlatRes) (h : polymarket attempt = .ok r) :
    (r.value = none ∧ r.status = "missing") ∨ (r.value.isSome = true ∧ r.status = "partial") := by
  rw [polymarket] at h
  cases hloop : polyPagesT (fun page => http_get_json (attempt page) 4) 4 0 0 0 0 0 with
  | error e => rw [hloop] at h; exact absurd h (by simp)
  | ok res =>
    rcases res with ⟨total, mcount, nz, fetches⟩
    rw [hloop] at h
    replace h : Except.ok (polymarketResult total mcount nz) = Except.ok r := h
    have hr : r = polymarketResult total mcount nz := ((Except.ok.injEq _ _).mp h).symm
    subst hr
    by_cases hc : 0 < mcount
    · exact Or.inr (by simp [polymarketResult, if_pos hc])
    · exact Or.inl (by simp [polymarketResult, if_neg hc])

theorem manifold_shape (attemptBets : Option ℤ → ℕ → Except String (ListResp Bet))
    (attemptMkts : ℕ → Except String (ListResp MMarket)) (startSec : ℚ)
    (r : PlatRes) (h : manifold attemptBets attemptMkts startSec = .ok r) :
    r.value.isSome = true ∧ r.status = "partial" := by
  rw [manifold] at h
  cases hloop : manifoldPagesT (fun before => http_get_json (attemptBets before) 4)
      startSec 4 none 0 [] 0 with
  | error e => rw [hloop] at h; exact absurd h (by simp)
  | ok res =>
    rcases res with ⟨vol, cset, scanned⟩
    rw [hloop] at h
    cases hmk : http_get_json attemptMkts 4 with
    | error e => rw [hmk] at h; exact absurd h (by simp)
    | ok mresp =>
      rw [hmk] at h
      cases mresp with
      | notList => exact absurd h (by simp)
      | ofList m =>
        replace h : Except.ok (manifoldResult vol cset scanned
            (m.countP (mktSinceStart startSec))
            ((m.filter (mktSinceStart startSec)).foldl
              (fun acc x => acc + (if pyUpper (x.outcomeType.getD "") == "BINARY" then 2 else 1)) 0))
            = Except.ok r := h
        have hr := ((Except.ok.injEq _ _).mp h).symm
        subst hr
        exact ⟨by simp [manifoldResult], by simp [manifoldResult]⟩

theorem kalshi_shape (attemptTrades : Option String → ℕ → Except String KTradesResp)
    (attemptMkts : ℕ → Except String (ListResp KMarket))
    (nowSec startSec endSec : ℚ) (r : PlatRes)
    (h : kalshi attemptTrades attemptMkts nowSec startSec endSec = .ok r) :
    (r.value = none ∧ r.status = "missing")
    ∨ (r.value.isSome = true ∧ (r.status = "partial" ∨ r.status = "ok")) := by
  rw [kalshi] at h
  cases hloop : kalshiTrades (fun c => http_get_json (attemptTrades c) 3)
      20 none 0 0 0 [] none none with
  | error e => rw [hloop] at h; exact absurd h (by simp)
  | ok res =>
    rcases res with ⟨pages, scanned, total, tickers, firstTs, lastTs, cursor⟩
    rw [hloop] at h
    cases hmk : http_get_json attemptMkts 4 with
    | error e => rw [hmk] at h; exact absurd h (by simp)
    | ok mresp =>
      rw [hmk] at h
      simp only [] at h
      by_cases hscan : (0 < scanned && firstTs.isSome && lastTs.isSome) = true
      · rw [if_pos hscan] at h
        by_cases hcur : pyTruthyOpt cursor = true
        · rw [if_pos hcur] at h
          have hr := ((Except.ok.injEq _ _).mp h).symm
          subst hr
          exact Or.inr ⟨by simp [kalshiResult], Or.inl (by simp [kalshiResult])⟩
        · rw [if_neg hcur] at h
          have hr := ((Except.ok.injEq _ _).mp h).symm
          subst hr
          exact Or.inr ⟨by simp [kalshiResult], Or.inr (by simp [kalshiResult])⟩
      · rw [if_neg hscan] at h
        have hr := ((Except.ok.injEq _ _).mp h).symm
        subst hr
        exact Or.inl ⟨by simp [kalshiResult], by simp [kalshiResult]⟩

/-- C2 amended: when every retry attempt of the first upstream HTTP call
fails, the retry loop surfaces the last error; each today-script estimator
then raises, and that script's `main` converts the exception into a record
with status `missing` and a null value, while the daily-history script's
`main` propagates the exception and produces no record at all. Moreover no
produced record in either script ever pairs a `partial` or `ok` status with a
null value. -/
theorem C2_amended :
    (∀ (J : Type) (attempt : ℕ → Except String J) (es : ℕ → String) (retries : ℕ),
      0 < retries → (∀ i, i < retries → attempt i = .error (es i)) →
      http_get_json attempt retries = .error (es (retries - 1)))
  ∧ (∀ (attempt : ℕ → ℕ → Except String (ListResp PMarket)) (e : String),
      (∀ t, t < 4 → attempt 0 t = Except.error e) →
      polymarket attempt = .error e
      ∧ runPlatform (polymarket attempt) = platformFallback e
      ∧ (runPlatform (polymarket attempt)).status = "missing"
      ∧ (runPlatform (polymarket attempt)).value = none)
  ∧ (∀ (attB : Option ℤ → ℕ → Except String (ListResp Bet))
      (attM : ℕ → Except String (ListResp MMarket)) (startSec : ℚ) (e : String),
      (∀ t, t < 4 → attB none t = Except.error e) →
      manifold attB attM startSec = .error e
      ∧ (runPlatform (manifold attB attM startSec)).status = "missing"
      ∧ (runPlatform (manifold attB attM startSec)).value = none)
  ∧ (∀ (attT : Option String → ℕ → Except String KTradesResp)
      (attM : ℕ → Except String (ListResp KMarket)) (nowSec startSec endSec : ℚ) (e : String),
      (∀ t, t < 3 → attT none t = Except.error e) →
      kalshi attT attM nowSec startSec endSec = .error e
      ∧ (runPlatform (kalshi attT attM nowSec startSec endSec)).status = "missing"
      ∧ (runPlatform (kalshi attT attM nowSec startSec endSec)).value = none)
  ∧ (∀ (today : ℤ × ℕ × ℕ) (records : List DailyRec)
      (attempt : ℕ → ℕ → Except String (ListResp PMarket)) (e : String)
      (m : Except String (Option ℚ × String × String))
      (k : Except String (Option String × Option ℚ × String × String)),
      (∀ t, t < 4 → attempt 0 t = Except.error e) →
      updateMainRecords today records (get_polymarket_value attempt) m k = .error e)
  ∧ (∀ (attempt : ℕ → ℕ → Except String (ListResp PMarket)) (v : Option ℚ) (st nt : String),
      get_polymarket_value attempt = .ok (v, st, nt) →
      (st = "partial" ∨ st = "ok") → v.isSome = true)
  ∧ (∀ (attB : Option ℤ → ℕ → Except String (ListResp Bet)) (startSec : ℚ)
      (v : Option ℚ) (st nt : String),
      get_manifold_value attB startSec = .ok (v, st, nt) →
      (st = "partial" ∨ st = "ok") → v.isSome = true)
  ∧ (∀ (attK : ℕ → Except String SnapResp) (todayLocal : String)
      (d : Option String) (v : Option ℚ) (st nt : String),
      get_kalshi_published attK todayLocal = .ok (d, v, st, nt) →
      (st = "partial" ∨ st = "ok") → v.isSome = true)
  ∧ (∀ (attempt : ℕ → ℕ → Except String (ListResp PMarket)) (r : PlatRes),
      polymarket attempt = .ok r → (r.status = "partial" ∨ r.status = "ok") →
      r.value.isSome = true)
  ∧ (∀ (attB : Option ℤ → ℕ → Except String (ListResp Bet))
      (attM : ℕ → Except String (ListResp MMarket)) (startSec : ℚ) (r : PlatRes),
      manifold attB attM startSec = .ok r → (r.status = "partial" ∨ r.status = "ok") →
      r.value.isSome = true)
  ∧ (∀ (attT : Option String → ℕ → Except String KTradesResp)
      (attM : ℕ → Except String (ListResp KMarket)) (nowSec startSec endSec : ℚ) (r : PlatRes),
      kalshi attT attM nowSec startSec endSec = .ok r →
      (r.status = "partial" ∨ r.status = "ok") → r.value.isSome = true)
  ∧ (∀ e : String, (runPlatform (Except.error e)).status = "missing"
      ∧ (runPlatform (Except.error e)).value = none) := by
  refine ⟨?_, ?_, ?_, ?_, ?_, ?_, ?_, ?_, ?_, ?_, ?_, fun _ => ⟨rfl, rfl⟩⟩
  · intro J attempt es retries hpos hall
    exact http_get_json_all_fail attempt es retries hpos hall
  · intro attempt e hall
    have hhttp : http_get_json (attempt 0) 4 = .error e :=
      http_get_json_all_fail (attempt 0) (fun _ => e) 4 (by omega) (fun i hi => hall i hi)
    have hloop : polyPagesT (fun page => http_get_json (attempt page) 4) 4 0 0 0 0 0
        = .error e := by
      rw [show (4 : ℕ) = 3 + 1 from rfl, polyPagesT_succ]
      simp [hhttp]
    have hp : polymarket attempt = .error e := by
      rw [polymarket, hloop]
    exact ⟨hp, by rw [hp]; rfl, by rw [hp]; rfl, by rw [hp]; rfl⟩
  · intro attB attM startSec e hall
    have hhttp : http_get_json (attB none) 4 = .error e :=
      http_get_json_all_fail (attB none) (fun _ => e) 4 (by omega) (fun i hi => hall i hi)
    have hloop : manifoldPagesT (fun before => http_get_json (attB before) 4) startSec 4 none 0 [] 0
        = .error e := by
      rw [show (4 : ℕ) = 3 + 1 from rfl, manifoldPagesT_succ]
      simp [hhttp]
    have hm : manifold attB attM startSec = .error e := by
      rw [manifold, hloop]
    exact ⟨hm, by rw [hm]; rfl, by rw [hm]; rfl⟩
  · intro attT attM nowSec startSec endSec e hall
    have hhttp : http_get_json (attT none) 3 = .error e :=
      http_get_json_all_fail (attT none) (fun _ => e) 3 (by omega) (fun i hi => hall i hi)
    have hloop : kalshiTrades (fun c => http_get_json (attT c) 3) 20 none 0 0 0 [] none none
        = .error e := by
      rw [show (20 : ℕ) = 19 + 1 from rfl, kalshiTrades_succ]
      simp [hhttp]
    have hk : kalshi attT attM nowSec startSec endSec = .error e := by
      rw [kalshi, hloop]
    exact ⟨hk, by rw [hk]; rfl, by rw [hk]; rfl⟩
  · intro today records attempt e m k hall
    have hhttp : http_get_json (attempt 0) 4 = .error e :=
      http_get_json_all_fail (attempt 0) (fun _ => e) 4 (by omega) (fun i hi => hall i hi)
    have hloop : polyPages (fun page => http_get_json (attempt page) 4) 4 0 0 0 0
        = .error e := by
      rw [show (4 : ℕ) = 3 + 1 from rfl, polyPages_succ]
      simp [hhttp]
    have hp : get_polymarket_value attempt = .error e := by
      rw [get_polymarket_value, hloop]
    rw [hp]
    rfl
  · intro attempt v st nt h hst
    rcases get_polymarket_value_shape attempt v st nt h with ⟨_, hs⟩ | ⟨hv, _⟩
    · subst hs
      rcases hst with h1 | h1 <;> exact absurd h1 (by decide)
    · exact hv
  · intro attB startSec v st nt h hst
    rcases get_manifold_value_shape attB startSec v st nt h with ⟨_, hs⟩ | ⟨hv, _⟩
    · subst hs
      rcases hst with h1 | h1 <;> exact absurd h1 (by decide)
    · exact hv
  · intro attK todayLocal d v st nt h hst
    rcases get_kalshi_published_shape attK todayLocal d v st nt h with ⟨_, hs⟩ | ⟨hv, _⟩
    · subst hs
      rcases hst with h1 | h1 <;> exact absurd h1 (by decide)
    · exact hv
  · intro attempt r h hst
    rcases polymarket_shape attempt r h with ⟨_, hs⟩ | ⟨hv, _⟩
    · rw [hs] at hst
      rcases hst with h1 | h1 <;> exact absurd h1 (by decide)
    · exact hv
  · intro attB attM startSec r h hst
    exact (manifold_shape attB attM startSec r h).1
  · intro attT attM nowSec startSec endSec r h hst
    rcases kalshi_shape attT attM nowSec startSec endSec r h with ⟨_, hs⟩ | ⟨hv, _⟩
    · rw [hs] at hst
      rcases hst with h1 | h1 <;> exact absurd h1 (by decide)
    · exact hv

/-- Counterexample to C2 as stated: in the daily-history script, when every
retry of the Polymarket HTTP call fails, no record with status `missing` is
produced for that platform — the exception propagates out of `main` and the
whole run aborts, producing no records at all. -/
theorem C2_counterexample :
    updateMainRecords (2025, 3, 31) []
      (get_polymarket_value (fun _ _ => Except.error "connection failed"))
      (Except.ok (some 1, "partial", "m")) (Except.ok (some "2025-03-30", some 2, "ok", "k"))
      = .error "connection failed" := rfl

/-- Witness for C2 at concrete oracles: a permanently failing transport and a
one-market page. -/
theorem C2_amended_witness :
    http_get_json (fun _ => (Except.error "down" : Except String ℕ)) 3 = Except.error "down"
  ∧ polymarket (fun _ _ => Except.error "down") = .error "down"
  ∧ (runPlatform (polymarket (fun _ _ => Except.error "down"))).status = "missing"
  ∧ (runPlatform (polymarket (fun _ _ => Except.error "down"))).value = none
  ∧ manifold (fun _ _ => Except.error "down") (fun _ => Except.error "x") 0 = .error "down"
  ∧ kalshi (fun _ _ => Except.error "down") (fun _ => Except.error "x") 0 0 0 = .error "down"
  ∧ updateMainRecords (2025, 3, 31) []
      (get_polymarket_value (fun _ _ => Except.error "down"))
      (Except.ok (some 1, "partial", "m")) (Except.ok (some "2025-03-30", some 2, "ok", "k"))
      = .error "down"
  ∧ (some (pyRound2 (0 + pmSum [⟨some 5⟩])) : Option ℚ).isSome = true := by
  refine ⟨?_, ?_, ?_, ?_, ?_, ?_, ?_, ?_⟩
  · exact C2_amended.1 ℕ (fun _ => Except.error "down") (fun _ => "down") 3
      (by decide) (fun i _ => rfl)
  · exact (C2_amended.2.1 (fun _ _ => Except.error "down") "down" (fun t _ => rfl)).1
  · exact (C2_amended.2.1 (fun _ _ => Except.error "down") "down" (fun t _ => rfl)).2.2.1
  · exact (C2_amended.2.1 (fun _ _ => Except.error "down") "down" (fun t _ => rfl)).2.2.2
  · exact (C2_amended.2.2.1 (fun _ _ => Except.error "down") (fun _ => Except.error "x")
      0 "down" (fun t _ => rfl)).1
  · exact (C2_amended.2.2.2.1 (fun _ _ => Except.error "down") (fun _ => Except.error "x")
      0 0 0 "down" (fun t _ => rfl)).1
  · exact C2_amended.2.2.2.2.1 (2025, 3, 31) [] (fun _ _ => Except.error "down") "down"
      (Except.ok (some 1, "partial", "m")) (Except.ok (some "2025-03-30", some 2, "ok", "k"))
      (fun t _ => rfl)
  · exact C2_amended.2.2.2.2.2.1 (fun _ _ => Except.ok (ListResp.ofList [⟨some 5⟩]))
      (some (pyRound2 (0 + pmSum [⟨some 5⟩]))) "partial"
      "sum(markets.volume24hr), 1 active unresolved markets" rfl (Or.inl rfl)
